import Mathlib

/-!
Verification of the date/time compliance toolkit `mcp/claim_date_tools.py`.

The module under scrutiny exposes three pure, string-valued operations:

* `calculate_timeline_duration(start_datetime, end_datetime)` — elapsed time
  between two `"YYYY-MM-DD HH:MM:SS"` timestamps;
* `calculate_business_days(start_date, end_date)` — inclusive calendar /
  business / weekend day counts between two `"YYYY-MM-DD"` dates;
* `check_policy_compliance(event_date, reference_date, deadline_days)` —
  INVALID / COMPLIANT / NON-COMPLIANT classification of an event against a
  deadline window.

This file gives a shallow embedding of the module.  Python `datetime.strptime`
with the two fixed formats is modelled at the character level, following the
regular expressions CPython compiles for the `%Y`, `%m`, `%d`, `%H`, `%M`,
`%S` directives (exactly four digits for `%Y`; one or two digits with the
documented value ranges for the others; a run of whitespace for the literal
blank in the format; the whole string must be consumed).  Post-parse
constructor validation (`datetime(...)` raising `ValueError` on an impossible
day of month, year 0, or a leap second) is folded into the parser, since both
failure paths produce the same error message in the source.  Digits and
whitespace are modelled over their ASCII ranges.  Dates are mapped to their
proleptic Gregorian ordinal (0001-01-01 = day 1), exactly as
`datetime.date.toordinal`, so `timedelta` day differences and `weekday()` are
exact integer arithmetic.  Python integer `//` and `%` agree with Lean's
`Int.ediv` / `Int.emod`, and all uses below are on non-negative operands.
The floating-point steps in the source — `duration.total_seconds()`
(exact here, the value being an integer below `2^53`), the float division
by 3600, and the `f"{x:.2f}"` rendering — are modelled exactly: `fl64`
rounds the rational `T / 3600` to the nearest binary64 value (ties to even
on the 53-bit significand), and `cents2f` correctly rounds that double's
exact binary value to hundredths, again ties to even, exactly as CPython's
float formatting does.  At an exactly representable decimal tie such as
450 seconds = 0.125 hours this prints `0.12`, matching the program.
-/

namespace ClaimDateTools

/-- Numeric value of an ASCII digit character. -/
def digitVal (c : Char) : ℕ := c.toNat - 48

/-- ASCII digit character of a value below ten. -/
def digitChar (n : ℕ) : Char := Char.ofNat (48 + n)

/-- Decimal digit expansion, most significant first, as produced by Python
`str` on a non-negative integer.  The first argument is fuel. -/
def natToStrAux : ℕ → ℕ → List Char
  | 0, _ => []
  | fuel + 1, n =>
    if n < 10 then [digitChar n]
    else natToStrAux fuel (n / 10) ++ [digitChar (n % 10)]

/-- Python `str` on a natural number. -/
def natToStr (n : ℕ) : String := ⟨natToStrAux (n + 1) n⟩

/-- Python `str` on an integer. -/
def intToStr (i : ℤ) : String :=
  if i < 0 then "-" ++ natToStr i.natAbs else natToStr i.natAbs

/-- Floor of a rational in computable form (equal to `⌊q⌋` by
`Rat.floor_def`). -/
def ratFloor (q : ℚ) : ℤ := q.num / q.den

/-- Nearest integer to a rational, ties to the even integer — the rounding
used both by IEEE-754 binary64 operations (on the scaled significand) and
by CPython when it renders a double with `.2f` (on the double's exact
binary value). -/
def rne (q : ℚ) : ℤ :=
  if q - ratFloor q < 1 / 2 then ratFloor q
  else if 1 / 2 < q - ratFloor q then ratFloor q + 1
  else if ratFloor q % 2 = 0 then ratFloor q else ratFloor q + 1

/-- Binary exponent `⌊log₂ q⌋` of a positive rational, valid down to
`2 ^ (-2000)` — far below anything a double can hold. -/
def exp2floor (q : ℚ) : ℤ :=
  (Nat.log2 (ratFloor (q * 2 ^ (2000 : ℕ))).toNat : ℤ) - 2000

/-- Nearest IEEE-754 binary64 value of a non-negative rational in the
normal range, as an exact rational: the significand scaled into
`[2^52, 2^53)` is rounded to the nearest integer, ties to even.  This is
the exact value of the Python float `duration.total_seconds() / 3600`
(the numerator is an exact integer below `2^53`, so only the division
rounds). -/
def fl64 (q : ℚ) : ℚ :=
  if q ≤ 0 then 0
  else (rne (q * 2 ^ (52 - exp2floor q)) : ℚ) * 2 ^ (-(52 - exp2floor q))

/-- Hundredths rendered by `f"{x:.2f}"` on the double nearest to `q`:
CPython correctly rounds the exact binary value of that double to two
decimal digits, nearest and ties to even. -/
def cents2f (q : ℚ) : ℤ := rne (fl64 q * 100)

/-- Rendering of `f"{x:.2f}"` for the non-negative values reachable in the
source: integer part, a dot, and exactly two fractional digits. -/
def format2f (q : ℚ) : String :=
  intToStr (cents2f q / 100) ++ "." ++
    (if (cents2f q % 100).natAbs < 10 then "0" ++ natToStr (cents2f q % 100).natAbs
     else natToStr (cents2f q % 100).natAbs)

/-- ASCII whitespace recognised by Python `str.strip` and `\s`:
space, tab, newline, vertical tab, form feed, carriage return. -/
def isPySpace (c : Char) : Bool :=
  c == ' ' || c == '\t' || c == '\n' || c == '\x0b' || c == '\x0c' || c == '\r'

/-- Python `str.strip()`: drop whitespace from both ends. -/
def pyStrip (s : String) : String :=
  ⟨((s.data.dropWhile isPySpace).reverse.dropWhile isPySpace).reverse⟩

/-- Gregorian leap-year test, as `calendar.isleap` / `datetime`. -/
def isLeap (y : ℕ) : Bool := y % 4 == 0 && (y % 100 != 0 || y % 400 == 0)

/-- Length of a month in the proleptic Gregorian calendar. -/
def daysInMonth (y m : ℕ) : ℕ :=
  if m = 2 then (if isLeap y then 29 else 28)
  else if m = 4 ∨ m = 6 ∨ m = 9 ∨ m = 11 then 30
  else 31

/-- Days in year `y` strictly before month `m`. -/
def daysBeforeMonth (y m : ℕ) : ℕ :=
  ((List.range' 1 (m - 1)).map (daysInMonth y)).sum

/-- Calendar date as carried by a parsed `datetime`. -/
structure Date where
  year : ℕ
  month : ℕ
  day : ℕ
deriving DecidableEq

/-- Proleptic Gregorian ordinal of a date, as `datetime.date.toordinal`
(0001-01-01 is day 1). -/
def dateOrd (d : Date) : ℕ :=
  365 * (d.year - 1) + (d.year - 1) / 4 + (d.year - 1) / 400 +
    daysBeforeMonth d.year d.month + d.day - (d.year - 1) / 100

/-- Python `date.weekday()`: 0 = Monday … 6 = Sunday, via the ordinal. -/
def pyWeekday (o : ℕ) : ℕ := (o - 1) % 7

/-- Timestamp as carried by a parsed `datetime`. -/
structure PyDateTime where
  date : Date
  hour : ℕ
  minute : ℕ
  second : ℕ
deriving DecidableEq

/-- Seconds from the calendar origin to a timestamp; `datetime` comparison
and subtraction are exactly comparison and subtraction of this value. -/
def dtSeconds (t : PyDateTime) : ℕ :=
  86400 * dateOrd t.date + 3600 * t.hour + 60 * t.minute + t.second

/-- Model of the `%Y` directive: exactly four ASCII digits. -/
def parseYear4 : List Char → Option (ℕ × List Char)
  | a :: b :: c :: d :: rest =>
    if a.isDigit ∧ b.isDigit ∧ c.isDigit ∧ d.isDigit then
      some (1000 * digitVal a + 100 * digitVal b + 10 * digitVal c + digitVal d, rest)
    else none
  | _ => none

/-- Model of a literal character in a `strptime` format. -/
def parseLit (ch : Char) : List Char → Option (List Char)
  | c :: rest => if c = ch then some rest else none
  | [] => none

/-- Model of the two-or-one digit directives `%m`, `%d`, `%H`, `%M`, `%S`:
two digits whose value lies in `[lo2, hi2]`, else one digit whose value lies
in `[lo1, hi1]`.  This is exactly the ordered regex alternation CPython
compiles for each directive; no further backtracking is observable because
every following format character is a non-digit. -/
def parseField (lo2 hi2 lo1 hi1 : ℕ) : List Char → Option (ℕ × List Char)
  | [] => none
  | a :: rest =>
    if a.isDigit then
      match rest with
      | b :: rest2 =>
        if b.isDigit ∧ lo2 ≤ 10 * digitVal a + digitVal b ∧
            10 * digitVal a + digitVal b ≤ hi2 then
          some (10 * digitVal a + digitVal b, rest2)
        else if lo1 ≤ digitVal a ∧ digitVal a ≤ hi1 then some (digitVal a, rest)
        else none
      | [] =>
        if lo1 ≤ digitVal a ∧ digitVal a ≤ hi1 then some (digitVal a, []) else none
    else none

/-- Model of a whitespace run standing for the literal blank in a
`strptime` format (CPython rewrites it to the pattern `\s+`). -/
def parseSpaces1 : List Char → Option (List Char)
  | c :: rest => if isPySpace c then some (rest.dropWhile isPySpace) else none
  | [] => none

/-- Structural part of parsing `"YYYY-MM-DD"`: year, dash, month, dash, day. -/
def parseYMD (l : List Char) : Option (ℕ × ℕ × ℕ × List Char) :=
  match parseYear4 l with
  | Option.none => Option.none
  | Option.some (y, r1) =>
    match parseLit '-' r1 with
    | Option.none => Option.none
    | Option.some r2 =>
      match parseField 1 12 1 9 r2 with
      | Option.none => Option.none
      | Option.some (m, r3) =>
        match parseLit '-' r3 with
        | Option.none => Option.none
        | Option.some r4 =>
          match parseField 1 31 1 9 r4 with
          | Option.none => Option.none
          | Option.some (d, r5) => Option.some (y, m, d, r5)

/-- Model of `datetime.strptime(s, "%Y-%m-%d")` followed by `datetime`
construction: the whole string must be consumed, the year must be at least 1,
and the day must exist in the month. -/
def parseDate (s : String) : Option Date :=
  match parseYMD s.data with
  | Option.none => Option.none
  | Option.some (y, m, d, r) =>
    if r = [] ∧ 1 ≤ y ∧ d ≤ daysInMonth y m then Option.some ⟨y, m, d⟩
    else Option.none

/-- Model of `datetime.strptime(s, "%Y-%m-%d %H:%M:%S")` followed by
`datetime` construction (which also rejects the leap seconds 60 and 61 that
the `%S` pattern itself admits). -/
def parseDateTime (s : String) : Option PyDateTime :=
  match parseYMD s.data with
  | Option.none => Option.none
  | Option.some (y, m, d, r) =>
    match parseSpaces1 r with
    | Option.none => Option.none
    | Option.some r5 =>
      match parseField 0 23 0 9 r5 with
      | Option.none => Option.none
      | Option.some (hh, r6) =>
        match parseLit ':' r6 with
        | Option.none => Option.none
        | Option.some r7 =>
          match parseField 0 59 0 9 r7 with
          | Option.none => Option.none
          | Option.some (mi, r8) =>
            match parseLit ':' r8 with
            | Option.none => Option.none
            | Option.some r9 =>
              match parseField 0 61 0 9 r9 with
              | Option.none => Option.none
              | Option.some (ss, r10) =>
                if r10 = [] ∧ 1 ≤ y ∧ d ≤ daysInMonth y m ∧ ss ≤ 59 then
                  Option.some ⟨⟨y, m, d⟩, hh, mi, ss⟩
                else Option.none

/-! Message templates of `calculate_timeline_duration`.  Appends are grouped
to the right so that every message is a constant head followed by a tail. -/

/-- Missing-argument message of the duration tool. -/
def bothReqTimelineMsg : String :=
  "Error: Both start_datetime and end_datetime are required."

/-- Malformed `start_datetime` message; echoes the unstripped argument. -/
def startFmtMsg (start_datetime : String) : String :=
  "Error: Invalid start_datetime format '" ++
    (start_datetime ++
      "'. Required format: 'YYYY-MM-DD HH:MM:SS' (e.g., '2024-01-15 09:30:00')")

/-- Malformed `end_datetime` message; echoes the unstripped argument. -/
def endFmtMsg (end_datetime : String) : String :=
  "Error: Invalid end_datetime format '" ++
    (end_datetime ++
      "'. Required format: 'YYYY-MM-DD HH:MM:SS' (e.g., '2024-01-18 14:45:00')")

/-- Ordering-violation message of the duration tool. -/
def orderDTMsg (start_datetime end_datetime : String) : String :=
  "Error: End datetime (" ++
    (end_datetime ++
      (") is before start datetime (" ++
        (start_datetime ++
          "). Please ensure end time is after start time.")))

/-- Whole days of a `timedelta` of `T` seconds (`duration.days`). -/
def durDays (T : ℕ) : ℕ := T / 86400

/-- Remainder hours (`(total_seconds % 86400) // 3600`). -/
def durHours (T : ℕ) : ℕ := T % 86400 / 3600

/-- Remainder minutes (`(total_seconds % 3600) // 60`). -/
def durMinutes (T : ℕ) : ℕ := T % 3600 / 60

/-- Success message of the duration tool for an elapsed span of `T` seconds. -/
def durationMsg (T : ℕ) : String :=
  "Duration: " ++
    (natToStr (durDays T) ++
      (" days, " ++
        (natToStr (durHours T) ++
          (" hours, " ++
            (natToStr (durMinutes T) ++
              (" minutes (Total: " ++
                (format2f ((T : ℚ) / 3600) ++ " hours)")))))))

/-- Model of `calculate_timeline_duration`.  The final `except Exception`
fallback of the source is unreachable: every preceding step is total. -/
def calculate_timeline_duration (start_datetime end_datetime : String) : String :=
  if start_datetime = "" ∨ end_datetime = "" then bothReqTimelineMsg
  else
    match parseDateTime (pyStrip start_datetime) with
    | Option.none => startFmtMsg start_datetime
    | Option.some start_dt =>
      match parseDateTime (pyStrip end_datetime) with
      | Option.none => endFmtMsg end_datetime
      | Option.some end_dt =>
        if dtSeconds end_dt < dtSeconds start_dt then
          orderDTMsg start_datetime end_datetime
        else durationMsg (dtSeconds end_dt - dtSeconds start_dt)

/-! Message templates and model of `calculate_business_days`. -/

/-- Missing-argument message of the business-day tool. -/
def bothReqDatesMsg : String :=
  "Error: Both start_date and end_date are required."

/-- Malformed `start_date` message; echoes the unstripped argument. -/
def startDateFmtMsg (start_date : String) : String :=
  "Error: Invalid start_date format '" ++
    (start_date ++ "'. Required format: 'YYYY-MM-DD' (e.g., '2024-01-15')")

/-- Malformed `end_date` message; echoes the unstripped argument. -/
def endDateFmtMsg (end_date : String) : String :=
  "Error: Invalid end_date format '" ++
    (end_date ++ "'. Required format: 'YYYY-MM-DD' (e.g., '2024-01-25')")

/-- Ordering-violation message of the business-day tool. -/
def orderDateMsg (start_date end_date : String) : String :=
  "Error: End date (" ++
    (end_date ++
      (") is before start date (" ++
        (start_date ++ "). Please ensure end date is after start date.")))

/-- Loop of the source: business days among the `n` consecutive ordinals
starting at `s` (a day counts when its weekday is Monday…Friday). -/
def businessCount (s : ℕ) : ℕ → ℕ
  | 0 => 0
  | n + 1 => businessCount s n + (if pyWeekday (s + n) < 5 then 1 else 0)

/-- Calendar days reported for ordinals `s ≤ e`: `(end - start).days + 1`. -/
def calDays (s e : ℕ) : ℕ := e - s + 1

/-- Business days reported for ordinals `s ≤ e`. -/
def bizDays (s e : ℕ) : ℕ := businessCount s (e - s + 1)

/-- Weekend days reported: `calendar_days - business_days`. -/
def wkndDays (s e : ℕ) : ℕ := calDays s e - bizDays s e

/-- Success message of the business-day tool; echoes the unstripped
arguments. -/
def bizMsg (b c w : ℕ) (start_date end_date : String) : String :=
  "Business days: " ++
    (natToStr b ++
      (", Calendar days: " ++
        (natToStr c ++
          (", Weekend days: " ++
            (natToStr w ++
              (" (from " ++
                (start_date ++ (" to " ++ (end_date ++ ")")))))))))

/-- Model of `calculate_business_days`.  The final `except Exception`
fallback of the source is unreachable: every preceding step is total. -/
def calculate_business_days (start_date end_date : String) : String :=
  if start_date = "" ∨ end_date = "" then bothReqDatesMsg
  else
    match parseDate (pyStrip start_date) with
    | Option.none => startDateFmtMsg start_date
    | Option.some sd =>
      match parseDate (pyStrip end_date) with
      | Option.none => endDateFmtMsg end_date
      | Option.some ed =>
        if dateOrd ed < dateOrd sd then orderDateMsg start_date end_date
        else
          bizMsg (bizDays (dateOrd sd) (dateOrd ed))
            (calDays (dateOrd sd) (dateOrd ed))
            (wkndDays (dateOrd sd) (dateOrd ed)) start_date end_date

/-! Model of `check_policy_compliance`. -/

/-- Runtime value passed for `deadline_days`.  The LLM tool layer may hand
the function `None`, an integer, or a string; these are the shapes the
source's validation distinguishes. -/
inductive PyDeadline where
  | none
  | int (n : ℤ)
  | str (s : String)
deriving DecidableEq

/-- Model of Python `int(s)` on a string: surrounding whitespace, an
optional sign, then at least one ASCII digit (underscore separators and
non-ASCII digits are not modelled). -/
def strToInt (s : String) : Option ℤ :=
  match ((s.data.dropWhile isPySpace).reverse.dropWhile isPySpace).reverse with
  | '+' :: ds =>
    if ds ≠ [] ∧ ds.all Char.isDigit then
      Option.some (ds.foldl (fun acc c => 10 * acc + digitVal c) 0 : ℕ)
    else Option.none
  | '-' :: ds =>
    if ds ≠ [] ∧ ds.all Char.isDigit then
      Option.some (-((ds.foldl (fun acc c => 10 * acc + digitVal c) 0 : ℕ) : ℤ))
    else Option.none
  | ds =>
    if ds ≠ [] ∧ ds.all Char.isDigit then
      Option.some (ds.foldl (fun acc c => 10 * acc + digitVal c) 0 : ℕ)
    else Option.none

/-- Model of `int(deadline_days)`: identity on integers, `strToInt` on
strings, a `TypeError` on `None` (the source returns before reaching this
on `None`, so that case is inert). -/
def coerceDeadline : PyDeadline → Option ℤ
  | PyDeadline.none => Option.none
  | PyDeadline.int n => Option.some n
  | PyDeadline.str s => strToInt s

/-- Interpolation of the raw `deadline_days` value into an f-string. -/
def showDeadline : PyDeadline → String
  | PyDeadline.none => "None"
  | PyDeadline.int n => intToStr n
  | PyDeadline.str s => s

/-- Missing-date message of the compliance tool. -/
def bothReqComplianceMsg : String :=
  "Error: Both event_date and reference_date are required."

/-- Missing-deadline message. -/
def deadlineReqMsg : String := "Error: deadline_days is required."

/-- Non-coercible-deadline message; echoes the raw argument. -/
def deadlineIntMsg (dd : PyDeadline) : String :=
  "Error: deadline_days must be an integer, got '" ++ (showDeadline dd ++ "'")

/-- Negative-deadline message (its wording says "positive" although the
check is only against negatives). -/
def deadlinePosMsg (d : ℤ) : String :=
  "Error: deadline_days must be positive, got " ++ intToStr d

/-- Malformed `event_date` message; echoes the unstripped argument. -/
def eventFmtMsg (event_date : String) : String :=
  "Error: Invalid event_date format '" ++
    (event_date ++ "'. Required format: 'YYYY-MM-DD' (e.g., '2024-01-20')")

/-- Malformed `reference_date` message; echoes the unstripped argument. -/
def refFmtMsg (reference_date : String) : String :=
  "Error: Invalid reference_date format '" ++
    (reference_date ++ "'. Required format: 'YYYY-MM-DD' (e.g., '2024-01-15')")

/-- INVALID classification message (event before reference); echoes the
unstripped date arguments and the absolute day difference. -/
def invalidMsg (event_date reference_date : String) (diff : ℤ) : String :=
  "INVALID: Event date (" ++
    (event_date ++
      (") is " ++
        (natToStr diff.natAbs ++
          (" days BEFORE reference date (" ++
            (reference_date ++
              "). Event should occur after reference date.")))))

/-- COMPLIANT classification message. -/
def compliantMsg (diff d : ℤ) : String :=
  "COMPLIANT: Event occurred " ++
    (intToStr diff ++
      (" days after reference date. Deadline: " ++
        (intToStr d ++
          (" days. Status: Within deadline (" ++
            (intToStr (d - diff) ++ " days remaining)")))))

/-- NON-COMPLIANT classification message. -/
def nonCompliantMsg (diff d : ℤ) : String :=
  "NON-COMPLIANT: Event occurred " ++
    (intToStr diff ++
      (" days after reference date. Deadline: " ++
        (intToStr d ++
          (" days. Status: EXCEEDED deadline by " ++
            (intToStr (diff - d) ++ " days")))))

/-- Model of `check_policy_compliance`.  The final `except Exception`
fallback of the source is unreachable: every preceding step is total. -/
def check_policy_compliance (event_date reference_date : String)
    (deadline_days : PyDeadline) : String :=
  if event_date = "" ∨ reference_date = "" then bothReqComplianceMsg
  else if deadline_days = PyDeadline.none then deadlineReqMsg
  else
    match coerceDeadline deadline_days with
    | Option.none => deadlineIntMsg deadline_days
    | Option.some d =>
      if d < 0 then deadlinePosMsg d
      else
        match parseDate (pyStrip event_date) with
        | Option.none => eventFmtMsg event_date
        | Option.some ev =>
          match parseDate (pyStrip reference_date) with
          | Option.none => refFmtMsg reference_date
          | Option.some rf =>
            if ((dateOrd ev : ℤ) - (dateOrd rf : ℤ)) < 0 then
              invalidMsg event_date reference_date
                ((dateOrd ev : ℤ) - (dateOrd rf : ℤ))
            else if ((dateOrd ev : ℤ) - (dateOrd rf : ℤ)) ≤ d then
              compliantMsg ((dateOrd ev : ℤ) - (dateOrd rf : ℤ)) d
            else nonCompliantMsg ((dateOrd ev : ℤ) - (dateOrd rf : ℤ)) d

/-! Predicates used to state the claims. -/

/-- Substring containment on strings, at the character level. -/
def strContains (pat s : String) : Prop :=
  ∃ u v : List Char, s.data = u ++ (pat.data ++ v)

/-- Success condition of the duration tool, mirroring the error taxonomy:
both arguments present, both parse (after stripping), and the ordering
`end >= start` holds. -/
def timelineOk (s e : String) : Prop :=
  s ≠ "" ∧ e ≠ "" ∧
    ∃ a b, parseDateTime (pyStrip s) = Option.some a ∧
      parseDateTime (pyStrip e) = Option.some b ∧ dtSeconds a ≤ dtSeconds b

/-- Success condition of the business-day tool. -/
def businessOk (s e : String) : Prop :=
  s ≠ "" ∧ e ≠ "" ∧
    ∃ a b, parseDate (pyStrip s) = Option.some a ∧
      parseDate (pyStrip e) = Option.some b ∧ dateOrd a ≤ dateOrd b

/-- Success condition of the compliance tool: dates present and parseable,
deadline present, coercible, and non-negative.  All three classification
outcomes (INVALID included) count as success, not error. -/
def complianceOk (ev rf : String) (dd : PyDeadline) : Prop :=
  ev ≠ "" ∧ rf ≠ "" ∧
    (∃ d, coerceDeadline dd = Option.some d ∧ 0 ≤ d) ∧
    (∃ x, parseDate (pyStrip ev) = Option.some x) ∧
    (∃ y, parseDate (pyStrip rf) = Option.some y)

/-- Character that can appear in an interpolated fragment of a success
message without ever contributing to an occurrence of `"Error"`: anything
except the two letters of the critical adjacent pair. -/
def okChar (c : Char) : Bool := !(c == 'E') && !(c == 'r')

/-- Absence of the adjacent pair `'E','r'` in a character list; a string
whose data satisfies this cannot contain `"Error"`. -/
def noEr : List Char → Bool
  | [] => true
  | [_] => true
  | a :: b :: rest => !(a == 'E' && b == 'r') && noEr (b :: rest)

/-- Bundle used to compose `noEr` across appends: no `'E','r'` pair inside,
and the last character is not `'E'` (so nothing to the right can complete a
pair across the seam). -/
def erSafe (l : List Char) : Prop := noEr l = true ∧ l.getLast? ≠ some 'E'

instance (l : List Char) : Decidable (erSafe l) := by
  unfold erSafe
  infer_instance

/-! Lemmas: the `noEr` scanning machinery used to show that success messages
never contain the substring `"Error"`. -/

lemma noEr_cons {x : Char} {l : List Char} :
    noEr (x :: l) = true ↔ (noEr l = true ∧ (l.head? = some 'r' → x ≠ 'E')) := by
  cases l with
  | nil => simp [noEr]
  | cons b t =>
    constructor
    · intro h
      simp only [noEr, Bool.and_eq_true, Bool.not_eq_true'] at h
      obtain ⟨h1, h2⟩ := h
      refine ⟨h2, ?_⟩
      intro hb hx
      subst hx
      simp only [List.head?_cons, Option.some.injEq] at hb
      subst hb
      simp at h1
    · rintro ⟨h1, h2⟩
      simp only [noEr, Bool.and_eq_true, Bool.not_eq_true']
      refine ⟨?_, h1⟩
      by_cases hx : x = 'E'
      · subst hx
        have hb : b ≠ 'r' := fun hb => h2 (by simp [hb]) rfl
        simp [hb]
      · simp [hx]

lemma noEr_append {a b : List Char} (ha : noEr a = true) (hb : noEr b = true)
    (hseam : a.getLast? = some 'E' → b.head? ≠ some 'r') : noEr (a ++ b) = true := by
  induction a with
  | nil => simpa using hb
  | cons x a ih =>
    rw [List.cons_append, noEr_cons]
    obtain ⟨hx1, hx2⟩ := noEr_cons.mp ha
    refine ⟨ih hx1 ?_, ?_⟩
    · intro hl
      apply hseam
      cases a with
      | nil => simp at hl
      | cons y t => rw [List.getLast?_cons_cons]; exact hl
    · intro hh
      cases a with
      | nil =>
        simp only [List.nil_append] at hh
        intro hx
        subst hx
        exact hseam (by simp) hh
      | cons y t =>
        simp only [List.cons_append, List.head?_cons, Option.some.injEq] at hh
        subst hh
        exact hx2 (by simp)

lemma erSafe_append {a b : List Char} (ha : erSafe a) (hb : erSafe b) :
    erSafe (a ++ b) := by
  refine ⟨noEr_append ha.1 hb.1 (fun hl => absurd hl ha.2), ?_⟩
  cases b with
  | nil => simpa using ha.2
  | cons y t =>
    rw [List.getLast?_append_of_ne_nil a (List.cons_ne_nil y t)]
    exact hb.2

lemma erSafe_of_ok {l : List Char} (h : ∀ c ∈ l, okChar c = true) : erSafe l := by
  constructor
  · induction l with
    | nil => rfl
    | cons x t ih =>
      rw [noEr_cons]
      refine ⟨ih (fun c hc => h c (List.mem_cons_of_mem x hc)), ?_⟩
      intro hh
      cases t with
      | nil => simp at hh
      | cons y u =>
        simp only [List.head?_cons, Option.some.injEq] at hh
        subst hh
        have := h 'r' (by simp)
        simp [okChar] at this
  · intro hl
    obtain ⟨hne, hx⟩ := List.mem_getLast?_eq_getLast hl
    have hmem : 'E' ∈ l := hx ▸ List.getLast_mem hne
    have := h 'E' hmem
    simp [okChar] at this

lemma noEr_no_pair {rest : List Char} : ∀ u : List Char,
    noEr (u ++ ('E' :: 'r' :: rest)) = false := by
  intro u
  induction u with
  | nil => simp [noEr]
  | cons x u ih =>
    rw [List.cons_append]
    by_contra h
    simp only [Bool.not_eq_false] at h
    have h2 := (noEr_cons.mp h).1
    rw [ih] at h2
    exact absurd h2 (by simp)

lemma not_contains_of_erSafe {s : String} (h : erSafe s.data) :
    ¬ strContains "Error" s := by
  rintro ⟨u, v, hv⟩
  have : "Error".data = 'E' :: 'r' :: ('r' :: 'o' :: 'r' :: []) := by decide
  rw [this] at hv
  have h2 : s.data = u ++ ('E' :: 'r' :: (('r' :: 'o' :: 'r' :: []) ++ v)) := by
    simpa using hv
  have := h.1
  rw [h2, noEr_no_pair u] at this
  exact absurd this (by simp)

lemma strContains_of_take5 {s : String} (h : s.data.take 5 = "Error".data) :
    strContains "Error" s :=
  ⟨[], s.data.drop 5, by rw [List.nil_append, ← h, List.take_append_drop]⟩

lemma strContains_append_left {c : String} (t : String)
    (hlen : 5 ≤ c.data.length) (h : c.data.take 5 = "Error".data) :
    strContains "Error" (c ++ t) := by
  apply strContains_of_take5
  rw [String.data_append, List.take_append_of_le_length hlen, h]

/-! Lemmas: character classes of rendered numbers, parsed dates, and
stripped whitespace. -/

lemma digitChar_isDigit {n : ℕ} (h : n < 10) : (digitChar n).isDigit = true := by
  interval_cases n <;> decide

lemma natToStrAux_digits : ∀ (fuel n : ℕ), ∀ c ∈ natToStrAux fuel n, c.isDigit = true := by
  intro fuel
  induction fuel with
  | zero => intro n c hc; simp [natToStrAux] at hc
  | succ fuel ih =>
    intro n c hc
    rw [natToStrAux] at hc
    by_cases h : n < 10
    · rw [if_pos h] at hc
      simp only [List.mem_singleton] at hc
      exact hc ▸ digitChar_isDigit h
    · rw [if_neg h] at hc
      rcases List.mem_append.mp hc with h1 | h1
      · exact ih (n / 10) c h1
      · simp only [List.mem_singleton] at h1
        exact h1 ▸ digitChar_isDigit (Nat.mod_lt n (by norm_num))

lemma okChar_of_isDigit {c : Char} (h : c.isDigit = true) : okChar c = true := by
  simp only [Char.isDigit, decide_eq_true_eq] at h
  simp only [okChar, Bool.and_eq_true, Bool.not_eq_true', beq_eq_false_iff_ne]
  constructor
  · intro hc; subst hc; revert h; decide
  · intro hc; subst hc; revert h; decide

lemma natToStr_ok : ∀ n, ∀ c ∈ (natToStr n).data, okChar c = true :=
  fun n c hc => okChar_of_isDigit (natToStrAux_digits (n + 1) n c hc)

lemma erSafe_natToStr (n : ℕ) : erSafe (natToStr n).data :=
  erSafe_of_ok (natToStr_ok n)

lemma intToStr_ok : ∀ i : ℤ, ∀ c ∈ (intToStr i).data, okChar c = true := by
  intro i c hc
  rw [intToStr] at hc
  by_cases h : i < 0
  · rw [if_pos h, String.data_append] at hc
    rcases List.mem_append.mp hc with h1 | h1
    · simp only [show "-".data = ['-'] from rfl, List.mem_singleton] at h1
      subst h1; decide
    · exact natToStr_ok _ c h1
  · rw [if_neg h] at hc
    exact natToStr_ok _ c hc

lemma erSafe_intToStr (i : ℤ) : erSafe (intToStr i).data :=
  erSafe_of_ok (intToStr_ok i)

lemma format2f_ok : ∀ q : ℚ, ∀ c ∈ (format2f q).data, okChar c = true := by
  intro q c hc
  rw [format2f] at hc
  rw [String.data_append, String.data_append] at hc
  rcases List.mem_append.mp hc with h1 | h1
  · rcases List.mem_append.mp h1 with h2 | h2
    · exact intToStr_ok _ c h2
    · simp only [show ".".data = ['.'] from rfl, List.mem_singleton] at h2
      subst h2; decide
  · by_cases h : (cents2f q % 100).natAbs < 10
    · rw [if_pos h, String.data_append] at h1
      rcases List.mem_append.mp h1 with h2 | h2
      · simp only [show "0".data = ['0'] from rfl, List.mem_singleton] at h2
        subst h2; decide
      · exact natToStr_ok _ c h2
    · rw [if_neg h] at h1
      exact natToStr_ok _ c h1

lemma erSafe_format2f (q : ℚ) : erSafe (format2f q).data :=
  erSafe_of_ok (format2f_ok q)

lemma okChar_of_space {c : Char} (h : isPySpace c = true) : okChar c = true := by
  simp only [isPySpace, Bool.or_eq_true, beq_iff_eq] at h
  rcases h with ((((h | h) | h) | h) | h) | h <;> subst h <;> decide

/-- Decomposition behind `str.strip`: the original characters are a
whitespace run, the stripped core, and a whitespace run. -/
lemma pyStrip_decomp (s : String) :
    ∃ u v, s.data = u ++ ((pyStrip s).data ++ v) ∧
      (∀ c ∈ u, isPySpace c = true) ∧ (∀ c ∈ v, isPySpace c = true) := by
  refine ⟨s.data.takeWhile isPySpace,
    ((s.data.dropWhile isPySpace).reverse.takeWhile isPySpace).reverse, ?_, ?_, ?_⟩
  · show s.data = _ ++ (((s.data.dropWhile isPySpace).reverse.dropWhile isPySpace).reverse ++ _)
    conv_lhs => rw [← List.takeWhile_append_dropWhile isPySpace s.data]
    congr 1
    conv_lhs =>
      rw [show s.data.dropWhile isPySpace
            = (s.data.dropWhile isPySpace).reverse.reverse by rw [List.reverse_reverse]]
      rw [← List.takeWhile_append_dropWhile isPySpace
            (s.data.dropWhile isPySpace).reverse]
    rw [List.reverse_append]
  · exact fun c hc => List.mem_takeWhile_imp hc
  · intro c hc
    rw [List.mem_reverse] at hc
    exact List.mem_takeWhile_imp hc

/-! Lemmas: the characters consumed by a successful date parse are digits
and dashes. -/

lemma parseYear4_decomp {l r : List Char} {y : ℕ} (h : parseYear4 l = Option.some (y, r)) :
    ∃ p, l = p ++ r ∧ ∀ c ∈ p, c.isDigit = true := by
  match l with
  | [] => simp [parseYear4] at h
  | [a] => simp [parseYear4] at h
  | [a, b] => simp [parseYear4] at h
  | [a, b, c] => simp [parseYear4] at h
  | a :: b :: c :: d :: rest =>
    rw [parseYear4] at h
    split_ifs at h with hd
    · simp only [Option.some.injEq, Prod.mk.injEq] at h
      refine ⟨[a, b, c, d], by simp [h.2], ?_⟩
      intro x hx
      simp only [List.mem_cons, List.not_mem_nil, or_false] at hx
      rcases hx with rfl | rfl | rfl | rfl
      · exact hd.1
      · exact hd.2.1
      · exact hd.2.2.1
      · exact hd.2.2.2

lemma parseLit_decomp {ch : Char} {l r : List Char} (h : parseLit ch l = Option.some r) :
    l = ch :: r := by
  match l with
  | [] => simp [parseLit] at h
  | c :: rest =>
    rw [parseLit] at h
    split_ifs at h with hc
    · simp only [Option.some.injEq] at h
      rw [hc, h]

lemma parseField_decomp {lo2 hi2 lo1 hi1 v : ℕ} {l r : List Char}
    (h : parseField lo2 hi2 lo1 hi1 l = Option.some (v, r)) :
    ∃ p, l = p ++ r ∧ ∀ c ∈ p, c.isDigit = true := by
  match l with
  | [] => simp [parseField] at h
  | [a] =>
    rw [parseField] at h
    split_ifs at h with ha hr
    simp only [Option.some.injEq, Prod.mk.injEq] at h
    refine ⟨[a], by simp [h.2], ?_⟩
    intro x hx
    simp only [List.mem_singleton] at hx
    exact hx ▸ ha
  | a :: b :: rest2 =>
    rw [parseField] at h
    split_ifs at h with ha h2 h1
    · simp only [Option.some.injEq, Prod.mk.injEq] at h
      refine ⟨[a, b], by simp [h.2], ?_⟩
      intro x hx
      simp only [List.mem_cons, List.not_mem_nil, or_false] at hx
      rcases hx with rfl | rfl
      · exact ha
      · exact h2.1
    · simp only [Option.some.injEq, Prod.mk.injEq] at h
      refine ⟨[a], by simp [h.2], ?_⟩
      intro x hx
      simp only [List.mem_singleton] at hx
      exact hx ▸ ha

lemma parseYMD_decomp {l r : List Char} {y m d : ℕ}
    (h : parseYMD l = Option.some (y, m, d, r)) :
    ∃ p, l = p ++ r ∧ ∀ c ∈ p, c.isDigit = true ∨ c = '-' := by
  rw [parseYMD] at h
  cases h1 : parseYear4 l with
  | none => simp only [h1] at h; exact absurd h (by simp)
  | some yr =>
    obtain ⟨yv, r1⟩ := yr
    simp only [h1] at h
    cases h2 : parseLit '-' r1 with
    | none => simp only [h2] at h; exact absurd h (by simp)
    | some r2 =>
      simp only [h2] at h
      cases h3 : parseField 1 12 1 9 r2 with
      | none => simp only [h3] at h; exact absurd h (by simp)
      | some mr =>
        obtain ⟨mv, r3⟩ := mr
        simp only [h3] at h
        cases h4 : parseLit '-' r3 with
        | none => simp only [h4] at h; exact absurd h (by simp)
        | some r4 =>
          simp only [h4] at h
          cases h5 : parseField 1 31 1 9 r4 with
          | none => simp only [h5] at h; exact absurd h (by simp)
          | some dr =>
            obtain ⟨dv, r5⟩ := dr
            simp only [h5] at h
            simp only [Option.some.injEq, Prod.mk.injEq] at h
            obtain ⟨rfl, rfl, rfl, rfl⟩ := h
            obtain ⟨p1, hp1, hd1⟩ := parseYear4_decomp h1
            have hl2 := parseLit_decomp h2
            obtain ⟨p3, hp3, hd3⟩ := parseField_decomp h3
            have hl4 := parseLit_decomp h4
            obtain ⟨p5, hp5, hd5⟩ := parseField_decomp h5
            refine ⟨p1 ++ ('-' :: (p3 ++ ('-' :: p5))), ?_, ?_⟩
            · rw [hp1, hl2, hp3, hl4, hp5]
              simp
            · intro c hc
              rcases List.mem_append.mp hc with hc | hc
              · exact Or.inl (hd1 c hc)
              · rcases List.mem_cons.mp hc with rfl | hc
                · exact Or.inr rfl
                · rcases List.mem_append.mp hc with hc | hc
                  · exact Or.inl (hd3 c hc)
                  · rcases List.mem_cons.mp hc with rfl | hc
                    · exact Or.inr rfl
                    · exact Or.inl (hd5 c hc)

lemma parseDate_chars {s : String} {d : Date} (h : parseDate s = Option.some d) :
    ∀ c ∈ s.data, c.isDigit = true ∨ c = '-' := by
  rw [parseDate] at h
  cases h1 : parseYMD s.data with
  | none => simp only [h1] at h; exact absurd h (by simp)
  | some q =>
    obtain ⟨y, m, dd, r⟩ := q
    simp only [h1] at h
    split_ifs at h with hcond
    obtain ⟨p, hp, hd⟩ := parseYMD_decomp h1
    intro c hc
    rw [hp, hcond.1] at hc
    exact hd c (by simpa using hc)

lemma okChar_of_dateChar {c : Char} (h : c.isDigit = true ∨ c = '-') :
    okChar c = true := by
  rcases h with h | h
  · exact okChar_of_isDigit h
  · subst h; decide

/-- Characters of any string accepted (after stripping) by the date parser
are whitespace, digits, or dashes — in particular never `'E'` or `'r'`. -/
lemma parseDate_strip_ok {s : String} {d : Date}
    (h : parseDate (pyStrip s) = Option.some d) :
    ∀ c ∈ s.data, okChar c = true := by
  obtain ⟨u, v, hs, hu, hv⟩ := pyStrip_decomp s
  intro c hc
  rw [hs] at hc
  rcases List.mem_append.mp hc with hc | hc
  · exact okChar_of_space (hu c hc)
  · rcases List.mem_append.mp hc with hc | hc
    · exact okChar_of_dateChar (parseDate_chars h c hc)
    · exact okChar_of_space (hv c hc)

lemma erSafe_of_parseDate {s : String} {d : Date}
    (h : parseDate (pyStrip s) = Option.some d) : erSafe s.data :=
  erSafe_of_ok (parseDate_strip_ok h)

/-! Lemmas: a string that parses after stripping is non-empty. -/

lemma parseDate_strip_ne_empty {s : String} {d : Date}
    (h : parseDate (pyStrip s) = Option.some d) : s ≠ "" := by
  rintro rfl
  have h0 : parseDate (pyStrip "") = Option.none := by decide
  rw [h0] at h
  exact Option.noConfusion h

lemma parseDateTime_strip_ne_empty {s : String} {t : PyDateTime}
    (h : parseDateTime (pyStrip s) = Option.some t) : s ≠ "" := by
  rintro rfl
  have h0 : parseDateTime (pyStrip "") = Option.none := by decide
  rw [h0] at h
  exact Option.noConfusion h

/-! Lemmas: distinguishing message templates by a constant head. -/

lemma str_ne_of_take {s t : String} (n : ℕ)
    (h : s.data.take n ≠ t.data.take n) : s ≠ t := by
  rintro rfl
  exact h rfl

lemma take_append_left (c t : String) {n : ℕ} (h : n ≤ c.data.length) :
    (c ++ t).data.take n = c.data.take n := by
  rw [String.data_append, List.take_append_of_le_length h]

/-! Lemmas: the binary64 model of the source's float division and
`f-string` rounding. -/

lemma ratFloor_eq (q : ℚ) : ratFloor q = ⌊q⌋ := Rat.floor_def.symm

lemma rne_close (q : ℚ) : |(rne q : ℚ) - q| ≤ 1 / 2 := by
  have hf : ((ratFloor q : ℤ) : ℚ) ≤ q := by
    rw [ratFloor_eq]
    exact Int.floor_le q
  have hf2 : q < (ratFloor q : ℚ) + 1 := by
    rw [ratFloor_eq]
    exact Int.lt_floor_add_one q
  rw [rne]
  split_ifs with h1 h2 h3
  · rw [abs_le]
    constructor <;> linarith
  · rw [abs_le]
    push_cast
    constructor <;> linarith
  · have heq : q - (ratFloor q : ℚ) = 1 / 2 := le_antisymm (not_lt.mp h2) (not_lt.mp h1)
    rw [abs_le]
    constructor <;> linarith
  · have heq : q - (ratFloor q : ℚ) = 1 / 2 := le_antisymm (not_lt.mp h2) (not_lt.mp h1)
    rw [abs_le]
    push_cast
    constructor <;> linarith

lemma rne_intCast (m : ℤ) : rne ((m : ℤ) : ℚ) = m := by
  have hm : ratFloor ((m : ℤ) : ℚ) = m := by
    rw [ratFloor_eq, Int.floor_intCast]
  rw [rne, hm]
  norm_num

lemma exp2floor_spec {q : ℚ} (hq : (2 : ℚ) ^ (-(2000 : ℤ)) ≤ q) :
    (2 : ℚ) ^ exp2floor q ≤ q ∧ q < 2 ^ (exp2floor q + 1) := by
  have hnpow : (2 : ℚ) ^ ((2000 : ℤ)) = 2 ^ (2000 : ℕ) := by
    rw [← zpow_natCast (2 : ℚ) 2000]
    norm_num
  have hppos : (0 : ℚ) < 2 ^ (2000 : ℕ) := by positivity
  have hx1 : (1 : ℚ) ≤ q * 2 ^ (2000 : ℕ) := by
    have hcancel : (2 : ℚ) ^ (-(2000 : ℤ)) * 2 ^ (2000 : ℕ) = 1 := by
      rw [← hnpow, ← zpow_add₀ (by norm_num : (2 : ℚ) ≠ 0)]
      norm_num
    calc (1 : ℚ) = 2 ^ (-(2000 : ℤ)) * 2 ^ (2000 : ℕ) := hcancel.symm
    _ ≤ q * 2 ^ (2000 : ℕ) := mul_le_mul_of_nonneg_right hq (le_of_lt hppos)
  set N := ratFloor (q * 2 ^ (2000 : ℕ)) with hN
  set L := Nat.log2 N.toNat with hL
  have hexp : exp2floor q = (L : ℤ) - 2000 := by
    rw [exp2floor, ← hN, ← hL]
  have hN1 : 1 ≤ N := by
    rw [hN, ratFloor_eq]
    exact Int.le_floor.mpr (by exact_mod_cast hx1)
  have hNtoNat : (N.toNat : ℤ) = N := Int.toNat_of_nonneg (by omega)
  have hNq : ((N : ℤ) : ℚ) ≤ q * 2 ^ (2000 : ℕ) := by
    rw [hN, ratFloor_eq]
    exact Int.floor_le _
  have hNq2 : q * 2 ^ (2000 : ℕ) < ((N : ℤ) : ℚ) + 1 := by
    rw [hN, ratFloor_eq]
    exact Int.lt_floor_add_one _
  have hlow : (2 : ℚ) ^ (L : ℕ) ≤ q * 2 ^ (2000 : ℕ) := by
    have h1 : (2 : ℕ) ^ L ≤ N.toNat := Nat.log2_self_le (by omega)
    calc (2 : ℚ) ^ (L : ℕ) ≤ (N.toNat : ℚ) := by exact_mod_cast h1
    _ = ((N : ℤ) : ℚ) := by exact_mod_cast hNtoNat
    _ ≤ q * 2 ^ (2000 : ℕ) := hNq
  have hhigh : q * 2 ^ (2000 : ℕ) < (2 : ℚ) ^ (L + 1 : ℕ) := by
    have h1 : N.toNat < 2 ^ (L + 1) := Nat.lt_log2_self
    have h3 : (N.toNat : ℤ) + 1 ≤ (2 : ℤ) ^ (L + 1 : ℕ) := by
      exact_mod_cast Nat.succ_le_of_lt h1
    rw [hNtoNat] at h3
    have h2 : ((N : ℤ) : ℚ) + 1 ≤ (2 : ℚ) ^ (L + 1 : ℕ) := by exact_mod_cast h3
    linarith
  constructor
  · rw [hexp, zpow_sub₀ (by norm_num : (2 : ℚ) ≠ 0), div_le_iff₀ (by positivity)]
    calc (2 : ℚ) ^ ((L : ℕ) : ℤ) = (2 : ℚ) ^ (L : ℕ) := zpow_natCast 2 L
    _ ≤ q * 2 ^ (2000 : ℕ) := hlow
    _ = q * 2 ^ ((2000 : ℤ)) := by rw [hnpow]
  · rw [hexp, show (L : ℤ) - 2000 + 1 = ((L + 1 : ℕ) : ℤ) - 2000 by push_cast; ring,
      zpow_sub₀ (by norm_num : (2 : ℚ) ≠ 0), lt_div_iff₀ (by positivity)]
    calc q * 2 ^ ((2000 : ℤ)) = q * 2 ^ (2000 : ℕ) := by rw [hnpow]
    _ < (2 : ℚ) ^ (L + 1 : ℕ) := hhigh
    _ = (2 : ℚ) ^ ((L + 1 : ℕ) : ℤ) := (zpow_natCast 2 _).symm

lemma exp2floor_unique {q : ℚ} {e : ℤ} (he : -(2000 : ℤ) ≤ e)
    (h1 : (2 : ℚ) ^ e ≤ q) (h2 : q < 2 ^ (e + 1)) : exp2floor q = e := by
  have hq : (2 : ℚ) ^ (-(2000 : ℤ)) ≤ q :=
    le_trans (zpow_le_zpow_right₀ one_le_two he) h1
  obtain ⟨ha, hb⟩ := exp2floor_spec hq
  have h3 : exp2floor q < e + 1 :=
    (zpow_lt_zpow_iff_right₀ one_lt_two).mp (lt_of_le_of_lt ha h2)
  have h4 : e < exp2floor q + 1 :=
    (zpow_lt_zpow_iff_right₀ one_lt_two).mp (lt_of_le_of_lt h1 hb)
  omega

lemma fl64_close {q : ℚ} (h0 : 0 < q) (hq : (2 : ℚ) ^ (-(2000 : ℤ)) ≤ q) :
    |fl64 q - q| ≤ 2 ^ (exp2floor q - 53) := by
  rw [fl64, if_neg (not_le.mpr h0)]
  have hker := rne_close (q * 2 ^ (52 - exp2floor q))
  have hpos : (0 : ℚ) < 2 ^ (-(52 - exp2floor q)) := by positivity
  have hcancel : (2 : ℚ) ^ (52 - exp2floor q) * 2 ^ (-(52 - exp2floor q)) = 1 := by
    rw [← zpow_add₀ (by norm_num : (2 : ℚ) ≠ 0)]
    norm_num
  have hsplit : (rne (q * 2 ^ (52 - exp2floor q)) : ℚ) * 2 ^ (-(52 - exp2floor q)) - q
      = ((rne (q * 2 ^ (52 - exp2floor q)) : ℚ) - q * 2 ^ (52 - exp2floor q)) *
          2 ^ (-(52 - exp2floor q)) := by
    rw [sub_mul, mul_assoc, hcancel, mul_one]
  rw [hsplit, abs_mul, abs_of_pos hpos]
  calc |(rne (q * 2 ^ (52 - exp2floor q)) : ℚ) - q * 2 ^ (52 - exp2floor q)| *
        2 ^ (-(52 - exp2floor q))
      ≤ (1 / 2) * 2 ^ (-(52 - exp2floor q)) :=
        mul_le_mul_of_nonneg_right hker (le_of_lt hpos)
  _ = 2 ^ (exp2floor q - 53) := by
      rw [show (1 : ℚ) / 2 = 2 ^ (-(1 : ℤ)) by norm_num,
        ← zpow_add₀ (by norm_num : (2 : ℚ) ≠ 0),
        show (-(1 : ℤ)) + -(52 - exp2floor q) = exp2floor q - 53 by ring]

lemma fl64_eval {q : ℚ} {e m : ℤ} (he : -(2000 : ℤ) ≤ e) (h0 : 0 < q)
    (h1 : (2 : ℚ) ^ e ≤ q) (h2 : q < 2 ^ (e + 1))
    (h3 : q * 2 ^ (52 - e) = ((m : ℤ) : ℚ)) :
    fl64 q = ((m : ℤ) : ℚ) * 2 ^ (e - 52) := by
  rw [fl64, if_neg (not_le.mpr h0), exp2floor_unique he h1 h2, h3, rne_intCast, neg_sub]

/-- Printed-value error bound on the reachable inputs: for elapsed seconds
below `2 ^ 45` the hundredths printed for `T / 3600` hours are within half
a hundredth of the exact ratio.  The double rounding contributes at most
`2 ^ (-20)`, and since `100 * T / 3600` has denominator dividing 36 it can
never sit that close to a half-integer without being one. -/
lemma cents2f_div3600_close (T : ℕ) (hT : T ≤ 2 ^ 45) :
    |(cents2f ((T : ℚ) / 3600) : ℚ) / 100 - (T : ℚ) / 3600| ≤ 1 / 200 := by
  rcases Nat.eq_zero_or_pos T with rfl | hTpos
  · rw [show ((0 : ℕ) : ℚ) / 3600 = 0 by norm_num, cents2f, fl64, if_pos le_rfl,
      show (0 : ℚ) * 100 = ((0 : ℤ) : ℚ) by norm_num, rne_intCast]
    norm_num
  · set q := (T : ℚ) / 3600 with hqdef
    have hTq : (1 : ℚ) ≤ (T : ℚ) := by exact_mod_cast hTpos
    have h0 : (0 : ℚ) < q := by
      rw [hqdef]
      positivity
    have hqlow : (2 : ℚ) ^ (-(2000 : ℤ)) ≤ q := by
      have s1 : (2 : ℚ) ^ (-(2000 : ℤ)) ≤ 2 ^ (-(12 : ℤ)) :=
        zpow_le_zpow_right₀ one_le_two (by norm_num)
      have s2 : (2 : ℚ) ^ (-(12 : ℤ)) ≤ q := by
        rw [show (2 : ℚ) ^ (-(12 : ℤ)) = 1 / 4096 by norm_num, hqdef,
          div_le_div_iff (by norm_num) (by norm_num)]
        nlinarith
      linarith
    obtain ⟨ha, hb⟩ := exp2floor_spec hqlow
    have heup : exp2floor q ≤ 33 := by
      have hqup : q < 2 ^ ((34 : ℤ)) := by
        have hTc : (T : ℚ) ≤ 2 ^ (45 : ℕ) := by exact_mod_cast hT
        have h34 : (2 : ℚ) ^ ((34 : ℤ)) = 2 ^ (34 : ℕ) := zpow_natCast 2 34
        rw [hqdef, div_lt_iff (by norm_num), h34]
        calc (T : ℚ) ≤ 2 ^ (45 : ℕ) := hTc
        _ < 2 ^ (34 : ℕ) * 3600 := by norm_num
      have := (zpow_lt_zpow_iff_right₀ one_lt_two).mp (lt_of_le_of_lt ha hqup)
      omega
    have hflc2 : |fl64 q - q| ≤ 2 ^ (-(20 : ℤ)) :=
      le_trans (fl64_close h0 hqlow) (zpow_le_zpow_right₀ one_le_two (by omega))
    have hrc := rne_close (fl64 q * 100)
    have hcq : |(cents2f q : ℚ) - 100 * q| ≤ 1 / 2 + 100 * 2 ^ (-(20 : ℤ)) := by
      have hsplit : (cents2f q : ℚ) - 100 * q
          = ((rne (fl64 q * 100) : ℚ) - fl64 q * 100) + 100 * (fl64 q - q) := by
        rw [cents2f]
        ring
      have htri := abs_add ((rne (fl64 q * 100) : ℚ) - fl64 q * 100)
        (100 * (fl64 q - q))
      have hB : |(100 : ℚ) * (fl64 q - q)| ≤ 100 * 2 ^ (-(20 : ℤ)) := by
        rw [abs_mul, abs_of_pos (by norm_num : (0 : ℚ) < 100)]
        linarith
      rw [hsplit]
      exact le_trans (abs_add _ _) (add_le_add hrc hB)
    have hzq : ((36 * cents2f q - (T : ℤ) : ℤ) : ℚ)
        = 36 * (cents2f q : ℚ) - (T : ℚ) := by
      push_cast
      ring
    have habs : |((36 * cents2f q - (T : ℤ) : ℤ) : ℚ)| < 19 := by
      rw [hzq, show 36 * (cents2f q : ℚ) - (T : ℚ)
          = 36 * ((cents2f q : ℚ) - 100 * q) by rw [hqdef]; ring,
        abs_mul, abs_of_pos (by norm_num : (0 : ℚ) < 36)]
      have hmul : (36 : ℚ) * |(cents2f q : ℚ) - 100 * q|
          ≤ 36 * (1 / 2 + 100 * 2 ^ (-(20 : ℤ))) :=
        mul_le_mul_of_nonneg_left hcq (by norm_num)
      have hval : (36 : ℚ) * (1 / 2 + 100 * 2 ^ (-(20 : ℤ))) < 19 := by
        rw [show (2 : ℚ) ^ (-(20 : ℤ)) = 1 / 1048576 by norm_num]
        norm_num
      linarith
    have hzint : |36 * cents2f q - (T : ℤ)| ≤ 18 := by
      have hcast : ((|36 * cents2f q - (T : ℤ)| : ℤ) : ℚ)
          = |((36 * cents2f q - (T : ℤ) : ℤ) : ℚ)| := by
        push_cast
        ring
      have h19 : |36 * cents2f q - (T : ℤ)| < 19 := by
        have := habs
        rw [← hcast] at this
        exact_mod_cast this
      omega
    have hfinal : (cents2f q : ℚ) / 100 - q
        = ((36 * cents2f q - (T : ℤ) : ℤ) : ℚ) / 3600 := by
      rw [hzq, hqdef]
      ring
    rw [hfinal, abs_div, abs_of_pos (by norm_num : (0 : ℚ) < 3600),
      div_le_div_iff (by norm_num) (by norm_num)]
    have hle : |((36 * cents2f q - (T : ℤ) : ℤ) : ℚ)| ≤ 18 := by
      have hcast : ((|36 * cents2f q - (T : ℤ)| : ℤ) : ℚ)
          = |((36 * cents2f q - (T : ℤ) : ℤ) : ℚ)| := by
        push_cast
        ring
      rw [← hcast]
      exact_mod_cast hzint
    linarith

/-! Lemmas: bounds on parsed values — four-digit years cap the ordinal, so
elapsed seconds stay far below `2^53` (floats exact) and `2^45` (the bound
used by `cents2f_div3600_close`). -/

lemma digitVal_le {c : Char} (h : c.isDigit = true) : digitVal c ≤ 9 := by
  simp only [Char.isDigit, Bool.and_eq_true, decide_eq_true_eq] at h
  have h2 : c.toNat ≤ 57 := h.2
  rw [digitVal]
  omega

lemma parseYear4_le {l r : List Char} {y : ℕ} (h : parseYear4 l = Option.some (y, r)) :
    y ≤ 9999 := by
  match l with
  | [] => simp [parseYear4] at h
  | [a] => simp [parseYear4] at h
  | [a, b] => simp [parseYear4] at h
  | [a, b, c] => simp [parseYear4] at h
  | a :: b :: c :: d :: rest =>
    rw [parseYear4] at h
    split_ifs at h with hd
    simp only [Option.some.injEq, Prod.mk.injEq] at h
    have ha := digitVal_le hd.1
    have hb := digitVal_le hd.2.1
    have hc := digitVal_le hd.2.2.1
    have hd4 := digitVal_le hd.2.2.2
    omega

lemma parseField_le {lo2 hi2 lo1 hi1 v : ℕ} {l r : List Char}
    (h : parseField lo2 hi2 lo1 hi1 l = Option.some (v, r)) (h12 : hi1 ≤ hi2) :
    v ≤ hi2 := by
  match l with
  | [] => simp [parseField] at h
  | [a] =>
    rw [parseField] at h
    split_ifs at h with ha hr
    simp only [Option.some.injEq, Prod.mk.injEq] at h
    omega
  | a :: b :: rest2 =>
    rw [parseField] at h
    split_ifs at h with ha h2 h1
    · simp only [Option.some.injEq, Prod.mk.injEq] at h
      omega
    · simp only [Option.some.injEq, Prod.mk.injEq] at h
      omega

lemma parseYMD_bounds {l r : List Char} {y m d : ℕ}
    (h : parseYMD l = Option.some (y, m, d, r)) : y ≤ 9999 ∧ m ≤ 12 ∧ d ≤ 31 := by
  rw [parseYMD] at h
  cases h1 : parseYear4 l with
  | none => simp only [h1] at h; exact absurd h (by simp)
  | some yr =>
    obtain ⟨yv, r1⟩ := yr
    simp only [h1] at h
    cases h2 : parseLit '-' r1 with
    | none => simp only [h2] at h; exact absurd h (by simp)
    | some r2 =>
      simp only [h2] at h
      cases h3 : parseField 1 12 1 9 r2 with
      | none => simp only [h3] at h; exact absurd h (by simp)
      | some mr =>
        obtain ⟨mv, r3⟩ := mr
        simp only [h3] at h
        cases h4 : parseLit '-' r3 with
        | none => simp only [h4] at h; exact absurd h (by simp)
        | some r4 =>
          simp only [h4] at h
          cases h5 : parseField 1 31 1 9 r4 with
          | none => simp only [h5] at h; exact absurd h (by simp)
          | some dr =>
            obtain ⟨dv, r5⟩ := dr
            simp only [h5] at h
            simp only [Option.some.injEq, Prod.mk.injEq] at h
            obtain ⟨rfl, rfl, rfl, rfl⟩ := h
            exact ⟨parseYear4_le h1, parseField_le h3 (by norm_num),
              parseField_le h5 (by norm_num)⟩

lemma parseDateTime_bounds {s : String} {t : PyDateTime}
    (h : parseDateTime s = Option.some t) :
    t.date.year ≤ 9999 ∧ t.date.month ≤ 12 ∧ t.date.day ≤ 31 ∧
      t.hour ≤ 23 ∧ t.minute ≤ 59 ∧ t.second ≤ 59 := by
  rw [parseDateTime] at h
  cases h1 : parseYMD s.data with
  | none => simp only [h1] at h; exact absurd h (by simp)
  | some q =>
    obtain ⟨y, m, d, r⟩ := q
    simp only [h1] at h
    cases h2 : parseSpaces1 r with
    | none => simp only [h2] at h; exact absurd h (by simp)
    | some r5 =>
      simp only [h2] at h
      cases h3 : parseField 0 23 0 9 r5 with
      | none => simp only [h3] at h; exact absurd h (by simp)
      | some hr =>
        obtain ⟨hh, r6⟩ := hr
        simp only [h3] at h
        cases h4 : parseLit ':' r6 with
        | none => simp only [h4] at h; exact absurd h (by simp)
        | some r7 =>
          simp only [h4] at h
          cases h5 : parseField 0 59 0 9 r7 with
          | none => simp only [h5] at h; exact absurd h (by simp)
          | some mr =>
            obtain ⟨mi, r8⟩ := mr
            simp only [h5] at h
            cases h6 : parseLit ':' r8 with
            | none => simp only [h6] at h; exact absurd h (by simp)
            | some r9 =>
              simp only [h6] at h
              cases h7 : parseField 0 61 0 9 r9 with
              | none => simp only [h7] at h; exact absurd h (by simp)
              | some sr =>
                obtain ⟨ss, r10⟩ := sr
                simp only [h7] at h
                split_ifs at h with hcond
                simp only [Option.some.injEq] at h
                obtain ⟨hy, hm, hd⟩ := parseYMD_bounds h1
                subst h
                exact ⟨hy, hm, hd, parseField_le h3 (by norm_num),
                  parseField_le h5 (by norm_num), hcond.2.2.2⟩

lemma daysInMonth_le (y m : ℕ) : daysInMonth y m ≤ 31 := by
  rw [daysInMonth]
  split_ifs <;> omega

lemma daysBeforeMonth_le (y m : ℕ) (hm : m ≤ 12) : daysBeforeMonth y m ≤ 341 := by
  rw [daysBeforeMonth]
  have hlen : ((List.range' 1 (m - 1)).map (daysInMonth y)).length = m - 1 := by
    rw [List.length_map, List.length_range']
  have hsum := List.sum_le_card_nsmul ((List.range' 1 (m - 1)).map (daysInMonth y)) 31
    (by
      intro x hx
      obtain ⟨i, hi, rfl⟩ := List.mem_map.mp hx
      exact daysInMonth_le y i)
  rw [hlen, smul_eq_mul] at hsum
  omega

lemma dateOrd_le {dt : Date} (hy : dt.year ≤ 9999) (hm : dt.month ≤ 12)
    (hd : dt.day ≤ 31) : dateOrd dt ≤ 3700000 := by
  rw [dateOrd]
  have h1 : 365 * (dt.year - 1) ≤ 365 * 9998 := by
    apply Nat.mul_le_mul_left
    omega
  have h2 : (dt.year - 1) / 4 ≤ dt.year - 1 := Nat.div_le_self _ _
  have h3 : (dt.year - 1) / 400 ≤ dt.year - 1 := Nat.div_le_self _ _
  have h4 := daysBeforeMonth_le dt.year dt.month hm
  omega

lemma dtSeconds_le {s : String} {t : PyDateTime}
    (h : parseDateTime s = Option.some t) : dtSeconds t ≤ 2 ^ 45 := by
  obtain ⟨hy, hm, hd, hh, hmi, hss⟩ := parseDateTime_bounds h
  have hord := dateOrd_le hy hm hd
  rw [dtSeconds]
  have : 86400 * dateOrd t.date ≤ 86400 * 3700000 := by
    apply Nat.mul_le_mul_left
    exact hord
  omega

/-! Lemmas: the business-day counting loop. -/

lemma businessCount_le (s : ℕ) : ∀ n, businessCount s n ≤ n := by
  intro n
  induction n with
  | zero => simp [businessCount]
  | succ n ih =>
    rw [businessCount]
    split_ifs <;> omega

lemma businessCount_Icc (s : ℕ) : ∀ n, businessCount s (n + 1) =
    ((Finset.Icc s (s + n)).filter (fun o => pyWeekday o < 5)).card := by
  intro n
  induction n with
  | zero =>
    rw [businessCount, businessCount]
    rw [Nat.add_zero, Finset.Icc_self, Finset.filter_singleton]
    split_ifs with h
    · simp
    · simp
  | succ n ih =>
    have hins : Finset.Icc s (s + (n + 1)) = insert (s + (n + 1)) (Finset.Icc s (s + n)) := by
      rw [show s + (n + 1) = (s + n) + 1 by omega]
      exact (Nat.Icc_insert_succ_right (by omega)).symm
    rw [hins, Finset.filter_insert]
    rw [businessCount, ih]
    split_ifs with h
    · rw [Finset.card_insert_of_not_mem]
      intro hmem
      have := Finset.mem_Icc.mp (Finset.mem_of_mem_filter _ hmem)
      omega
    · omega

/-! Lemmas: branch characterizations of the three operations. -/

lemma timeline_empty {s e : String} (h : s = "" ∨ e = "") :
    calculate_timeline_duration s e = bothReqTimelineMsg := by
  rw [calculate_timeline_duration, if_pos h]

lemma timeline_startErr {s e : String} (hs : s ≠ "") (he : e ≠ "")
    (hp : parseDateTime (pyStrip s) = Option.none) :
    calculate_timeline_duration s e = startFmtMsg s := by
  rw [calculate_timeline_duration, if_neg (by tauto)]
  simp only [hp]

lemma timeline_endErr {s e : String} {a : PyDateTime} (hs : s ≠ "") (he : e ≠ "")
    (hpa : parseDateTime (pyStrip s) = Option.some a)
    (hpe : parseDateTime (pyStrip e) = Option.none) :
    calculate_timeline_duration s e = endFmtMsg e := by
  rw [calculate_timeline_duration, if_neg (by tauto)]
  simp only [hpa, hpe]

lemma timeline_order {s e : String} {a b : PyDateTime}
    (hpa : parseDateTime (pyStrip s) = Option.some a)
    (hpb : parseDateTime (pyStrip e) = Option.some b)
    (hlt : dtSeconds b < dtSeconds a) :
    calculate_timeline_duration s e = orderDTMsg s e := by
  rw [calculate_timeline_duration,
    if_neg (by
      simp only [not_or]
      exact ⟨parseDateTime_strip_ne_empty hpa, parseDateTime_strip_ne_empty hpb⟩)]
  simp only [hpa, hpb]
  rw [if_pos hlt]

lemma timeline_success {s e : String} {a b : PyDateTime}
    (hpa : parseDateTime (pyStrip s) = Option.some a)
    (hpb : parseDateTime (pyStrip e) = Option.some b)
    (hle : dtSeconds a ≤ dtSeconds b) :
    calculate_timeline_duration s e = durationMsg (dtSeconds b - dtSeconds a) := by
  rw [calculate_timeline_duration,
    if_neg (by
      simp only [not_or]
      exact ⟨parseDateTime_strip_ne_empty hpa, parseDateTime_strip_ne_empty hpb⟩)]
  simp only [hpa, hpb]
  rw [if_neg (by omega)]

lemma business_empty {s e : String} (h : s = "" ∨ e = "") :
    calculate_business_days s e = bothReqDatesMsg := by
  rw [calculate_business_days, if_pos h]

lemma business_startErr {s e : String} (hs : s ≠ "") (he : e ≠ "")
    (hp : parseDate (pyStrip s) = Option.none) :
    calculate_business_days s e = startDateFmtMsg s := by
  rw [calculate_business_days, if_neg (by tauto)]
  simp only [hp]

lemma business_endErr {s e : String} {a : Date} (hs : s ≠ "") (he : e ≠ "")
    (hpa : parseDate (pyStrip s) = Option.some a)
    (hpe : parseDate (pyStrip e) = Option.none) :
    calculate_business_days s e = endDateFmtMsg e := by
  rw [calculate_business_days, if_neg (by tauto)]
  simp only [hpa, hpe]

lemma business_order {s e : String} {a b : Date}
    (hpa : parseDate (pyStrip s) = Option.some a)
    (hpb : parseDate (pyStrip e) = Option.some b)
    (hlt : dateOrd b < dateOrd a) :
    calculate_business_days s e = orderDateMsg s e := by
  rw [calculate_business_days,
    if_neg (by
      simp only [not_or]
      exact ⟨parseDate_strip_ne_empty hpa, parseDate_strip_ne_empty hpb⟩)]
  simp only [hpa, hpb]
  rw [if_pos hlt]

lemma business_success {s e : String} {a b : Date}
    (hpa : parseDate (pyStrip s) = Option.some a)
    (hpb : parseDate (pyStrip e) = Option.some b)
    (hle : dateOrd a ≤ dateOrd b) :
    calculate_business_days s e =
      bizMsg (bizDays (dateOrd a) (dateOrd b)) (calDays (dateOrd a) (dateOrd b))
        (wkndDays (dateOrd a) (dateOrd b)) s e := by
  rw [calculate_business_days,
    if_neg (by
      simp only [not_or]
      exact ⟨parseDate_strip_ne_empty hpa, parseDate_strip_ne_empty hpb⟩)]
  simp only [hpa, hpb]
  rw [if_neg (by omega)]

lemma compliance_empty {ev rf : String} {dd : PyDeadline} (h : ev = "" ∨ rf = "") :
    check_policy_compliance ev rf dd = bothReqComplianceMsg := by
  rw [check_policy_compliance, if_pos h]

lemma compliance_ddReq {ev rf : String} (hev : ev ≠ "") (hrf : rf ≠ "") :
    check_policy_compliance ev rf PyDeadline.none = deadlineReqMsg := by
  rw [check_policy_compliance, if_neg (by tauto), if_pos rfl]

lemma compliance_ddInt {ev rf : String} {dd : PyDeadline} (hev : ev ≠ "") (hrf : rf ≠ "")
    (hne : dd ≠ PyDeadline.none) (hco : coerceDeadline dd = Option.none) :
    check_policy_compliance ev rf dd = deadlineIntMsg dd := by
  rw [check_policy_compliance, if_neg (by tauto), if_neg hne]
  simp only [hco]

lemma compliance_ddNeg {ev rf : String} {dd : PyDeadline} {d : ℤ}
    (hev : ev ≠ "") (hrf : rf ≠ "")
    (hco : coerceDeadline dd = Option.some d) (hneg : d < 0) :
    check_policy_compliance ev rf dd = deadlinePosMsg d := by
  have hne : dd ≠ PyDeadline.none := by
    rintro rfl
    simp [coerceDeadline] at hco
  rw [check_policy_compliance, if_neg (by tauto), if_neg hne]
  simp only [hco]
  rw [if_pos hneg]

lemma compliance_evErr {ev rf : String} {dd : PyDeadline} {d : ℤ}
    (hev : ev ≠ "") (hrf : rf ≠ "")
    (hco : coerceDeadline dd = Option.some d) (hd0 : 0 ≤ d)
    (hpe : parseDate (pyStrip ev) = Option.none) :
    check_policy_compliance ev rf dd = eventFmtMsg ev := by
  have hne : dd ≠ PyDeadline.none := by
    rintro rfl
    simp [coerceDeadline] at hco
  rw [check_policy_compliance, if_neg (by tauto), if_neg hne]
  simp only [hco]
  rw [if_neg (by omega)]
  simp only [hpe]

lemma compliance_rfErr {ev rf : String} {dd : PyDeadline} {d : ℤ} {x : Date}
    (hrf : rf ≠ "")
    (hco : coerceDeadline dd = Option.some d) (hd0 : 0 ≤ d)
    (hpe : parseDate (pyStrip ev) = Option.some x)
    (hpr : parseDate (pyStrip rf) = Option.none) :
    check_policy_compliance ev rf dd = refFmtMsg rf := by
  have hne : dd ≠ PyDeadline.none := by
    rintro rfl
    simp [coerceDeadline] at hco
  rw [check_policy_compliance,
    if_neg (by
      simp only [not_or]
      exact ⟨parseDate_strip_ne_empty hpe, hrf⟩), if_neg hne]
  simp only [hco]
  rw [if_neg (by omega)]
  simp only [hpe, hpr]

lemma compliance_success {ev rf : String} {dd : PyDeadline} {d : ℤ} {x y : Date}
    (hco : coerceDeadline dd = Option.some d) (hd0 : 0 ≤ d)
    (hpe : parseDate (pyStrip ev) = Option.some x)
    (hpr : parseDate (pyStrip rf) = Option.some y) :
    check_policy_compliance ev rf dd =
      (if ((dateOrd x : ℤ) - (dateOrd y : ℤ)) < 0 then
        invalidMsg ev rf ((dateOrd x : ℤ) - (dateOrd y : ℤ))
      else if ((dateOrd x : ℤ) - (dateOrd y : ℤ)) ≤ d then
        compliantMsg ((dateOrd x : ℤ) - (dateOrd y : ℤ)) d
      else nonCompliantMsg ((dateOrd x : ℤ) - (dateOrd y : ℤ)) d) := by
  have hne : dd ≠ PyDeadline.none := by
    rintro rfl
    simp [coerceDeadline] at hco
  rw [check_policy_compliance,
    if_neg (by
      simp only [not_or]
      exact ⟨parseDate_strip_ne_empty hpe, parseDate_strip_ne_empty hpr⟩), if_neg hne]
  simp only [hco]
  rw [if_neg (by omega)]
  simp only [hpe, hpr]

/-! Lemmas: success messages never contain `"Error"`. -/

lemma erSafe_durationMsg (T : ℕ) : erSafe (durationMsg T).data := by
  rw [durationMsg]
  simp only [String.data_append]
  exact erSafe_append (by decide)
    (erSafe_append (erSafe_natToStr _)
      (erSafe_append (by decide)
        (erSafe_append (erSafe_natToStr _)
          (erSafe_append (by decide)
            (erSafe_append (erSafe_natToStr _)
              (erSafe_append (by decide)
                (erSafe_append (erSafe_format2f _) (by decide))))))))

lemma not_contains_durationMsg (T : ℕ) : ¬ strContains "Error" (durationMsg T) :=
  not_contains_of_erSafe (erSafe_durationMsg T)

lemma erSafe_bizMsg (b c w : ℕ) {sd ed : String}
    (hsd : erSafe sd.data) (hed : erSafe ed.data) :
    erSafe (bizMsg b c w sd ed).data := by
  rw [bizMsg]
  simp only [String.data_append]
  exact erSafe_append (by decide)
    (erSafe_append (erSafe_natToStr _)
      (erSafe_append (by decide)
        (erSafe_append (erSafe_natToStr _)
          (erSafe_append (by decide)
            (erSafe_append (erSafe_natToStr _)
              (erSafe_append (by decide)
                (erSafe_append hsd
                  (erSafe_append (by decide)
                    (erSafe_append hed (by decide))))))))))

lemma erSafe_invalidMsg {ev rf : String} (diff : ℤ)
    (hev : erSafe ev.data) (hrf : erSafe rf.data) :
    erSafe (invalidMsg ev rf diff).data := by
  rw [invalidMsg]
  simp only [String.data_append]
  exact erSafe_append (by decide)
    (erSafe_append hev
      (erSafe_append (by decide)
        (erSafe_append (erSafe_natToStr _)
          (erSafe_append (by decide)
            (erSafe_append hrf (by decide))))))

lemma erSafe_compliantMsg (diff d : ℤ) : erSafe (compliantMsg diff d).data := by
  rw [compliantMsg]
  simp only [String.data_append]
  exact erSafe_append (by decide)
    (erSafe_append (erSafe_intToStr _)
      (erSafe_append (by decide)
        (erSafe_append (erSafe_intToStr _)
          (erSafe_append (by decide)
            (erSafe_append (erSafe_intToStr _) (by decide))))))

lemma erSafe_nonCompliantMsg (diff d : ℤ) : erSafe (nonCompliantMsg diff d).data := by
  rw [nonCompliantMsg]
  simp only [String.data_append]
  exact erSafe_append (by decide)
    (erSafe_append (erSafe_intToStr _)
      (erSafe_append (by decide)
        (erSafe_append (erSafe_intToStr _)
          (erSafe_append (by decide)
            (erSafe_append (erSafe_intToStr _) (by decide))))))

lemma msgNe_const_tmpl (a c t : String) (n : ℕ) (h1 : n ≤ c.data.length)
    (h2 : a.data.take n ≠ c.data.take n) : a ≠ c ++ t := by
  apply str_ne_of_take n
  rw [take_append_left c t h1]
  exact h2

lemma msgNe_tmpl_tmpl (c₁ t₁ c₂ t₂ : String) (n : ℕ) (h1 : n ≤ c₁.data.length)
    (h2 : n ≤ c₂.data.length) (h3 : c₁.data.take n ≠ c₂.data.take n) :
    c₁ ++ t₁ ≠ c₂ ++ t₂ := by
  apply str_ne_of_take n
  rw [take_append_left c₁ t₁ h1, take_append_left c₂ t₂ h2]
  exact h3

/-! The claims. -/

/-- C1: for every call to `check_policy_compliance` whose two dates parse
(after stripping) and whose deadline coerces to a non-negative integer,
with `diff` the signed whole-day difference event − reference: `diff < 0`
yields the INVALID message carrying `|diff|`; `0 ≤ diff ≤ deadline` yields
the COMPLIANT message carrying `diff`, the deadline, and
`deadline − diff` days remaining; `diff > deadline` yields the
NON-COMPLIANT message carrying `diff`, the deadline, and
`diff − deadline` days overdue.  In particular `diff = deadline` is
COMPLIANT (0 remaining) and `diff = deadline + 1` is NON-COMPLIANT
(1 overdue). -/
theorem C1_policy_classification
    (ev rf : String) (dd : PyDeadline) (d : ℤ) (x y : Date)
    (hev : parseDate (pyStrip ev) = Option.some x)
    (hrf : parseDate (pyStrip rf) = Option.some y)
    (hdd : coerceDeadline dd = Option.some d)
    (hd0 : 0 ≤ d) :
    ((dateOrd x : ℤ) - dateOrd y < 0 →
      check_policy_compliance ev rf dd = invalidMsg ev rf ((dateOrd x : ℤ) - dateOrd y)) ∧
    (0 ≤ (dateOrd x : ℤ) - dateOrd y → (dateOrd x : ℤ) - dateOrd y ≤ d →
      check_policy_compliance ev rf dd = compliantMsg ((dateOrd x : ℤ) - dateOrd y) d) ∧
    (d < (dateOrd x : ℤ) - dateOrd y →
      check_policy_compliance ev rf dd = nonCompliantMsg ((dateOrd x : ℤ) - dateOrd y) d) ∧
    ((dateOrd x : ℤ) - dateOrd y = d →
      check_policy_compliance ev rf dd = compliantMsg d d) ∧
    ((dateOrd x : ℤ) - dateOrd y = d + 1 →
      check_policy_compliance ev rf dd = nonCompliantMsg (d + 1) d) := by
  have H := compliance_success hdd hd0 hev hrf
  refine ⟨?_, ?_, ?_, ?_, ?_⟩
  · intro h
    rw [H, if_pos h]
  · intro h0 h1
    rw [H, if_neg (by omega), if_pos h1]
  · intro h
    rw [H, if_neg (by omega), if_neg (by omega)]
  · intro h
    rw [H, if_neg (by omega), if_pos (by omega), h]
  · intro h
    rw [H, if_neg (by omega), if_neg (by omega), h]

/-- Witness for C1 at a concrete compliant call (5 days elapsed, deadline
30). -/
theorem C1_witness :
    check_policy_compliance "2024-01-20" "2024-01-15" (PyDeadline.int 30) =
      "COMPLIANT: Event occurred 5 days after reference date. Deadline: 30 days. Status: Within deadline (25 days remaining)" := by
  have h := (C1_policy_classification "2024-01-20" "2024-01-15"
      (PyDeadline.int 30) 30 ⟨2024, 1, 20⟩ ⟨2024, 1, 15⟩ (by decide) (by decide)
      (by decide) (by decide)).2.1 (by decide) (by decide)
  rw [h]
  decide

/-- C6: in `check_policy_compliance`, a missing deadline, a non-coercible
deadline, and a negative deadline each return their own distinct error
message, and the three deadline checks happen with no date parsing at all:
the statements below assume only that the date arguments are non-empty, so
a malformed date together with an invalid deadline reports the deadline
error. -/
theorem C6_deadline_validation_first
    (ev rf : String) (dd : PyDeadline) (hev : ev ≠ "") (hrf : rf ≠ "") :
    (dd = PyDeadline.none → check_policy_compliance ev rf dd = deadlineReqMsg) ∧
    (dd ≠ PyDeadline.none → coerceDeadline dd = Option.none →
      check_policy_compliance ev rf dd = deadlineIntMsg dd) ∧
    (∀ d : ℤ, coerceDeadline dd = Option.some d → d < 0 →
      check_policy_compliance ev rf dd = deadlinePosMsg d) ∧
    (∀ (dd2 : PyDeadline) (d : ℤ),
      deadlineReqMsg ≠ deadlineIntMsg dd2 ∧ deadlineReqMsg ≠ deadlinePosMsg d ∧
        deadlineIntMsg dd2 ≠ deadlinePosMsg d) := by
  refine ⟨?_, ?_, ?_, ?_⟩
  · rintro rfl
    exact compliance_ddReq hev hrf
  · intro hne hco
    exact compliance_ddInt hev hrf hne hco
  · intro d hco hneg
    exact compliance_ddNeg hev hrf hco hneg
  · intro dd2 d
    refine ⟨?_, ?_, ?_⟩
    · rw [deadlineReqMsg, deadlineIntMsg]
      exact msgNe_const_tmpl _ _ _ 22 (by decide) (by decide)
    · rw [deadlineReqMsg, deadlinePosMsg]
      exact msgNe_const_tmpl _ _ _ 22 (by decide) (by decide)
    · rw [deadlineIntMsg, deadlinePosMsg]
      exact msgNe_tmpl_tmpl _ _ _ _ 30 (by decide) (by decide) (by decide)

/-- Witness for C6: a malformed date together with a non-coercible deadline
reports the deadline error. -/
theorem C6_witness :
    check_policy_compliance "not-a-date" "2024-01-15" (PyDeadline.str "abc") =
      "Error: deadline_days must be an integer, got 'abc'" := by
  have h := (C6_deadline_validation_first "not-a-date" "2024-01-15"
      (PyDeadline.str "abc") (by decide) (by decide)).2.1 (by decide) (by decide)
  rw [h]
  decide

/-- C10: `check_policy_compliance` accepts a zero deadline — the rejection
branch fires exactly on strictly negative coerced values, with a message
that nevertheless says "must be positive" — and a zero deadline with equal
event and reference dates is COMPLIANT with 0 days elapsed and 0 days
remaining. -/
theorem C10_zero_deadline
    (ev rf : String) (x y : Date)
    (hev : parseDate (pyStrip ev) = Option.some x)
    (hrf : parseDate (pyStrip rf) = Option.some y)
    (hxy : dateOrd x = dateOrd y) :
    check_policy_compliance ev rf (PyDeadline.int 0) = compliantMsg 0 0 ∧
    (∀ (ev2 rf2 : String) (d : ℤ), ev2 ≠ "" → rf2 ≠ "" → d < 0 →
      check_policy_compliance ev2 rf2 (PyDeadline.int d) = deadlinePosMsg d) ∧
    (∀ d : ℤ, 0 ≤ d →
      check_policy_compliance ev rf (PyDeadline.int d) ≠ deadlinePosMsg d) := by
  refine ⟨?_, ?_, ?_⟩
  · have H := compliance_success (show coerceDeadline (PyDeadline.int 0) = Option.some 0 from rfl)
      le_rfl hev hrf
    rw [H, if_neg (by omega), if_pos (by omega)]
    rw [show (dateOrd x : ℤ) - dateOrd y = 0 by omega]
  · intro ev2 rf2 d h2 h3 hneg
    exact compliance_ddNeg h2 h3 rfl hneg
  · intro d hd0
    have H := compliance_success (show coerceDeadline (PyDeadline.int d) = Option.some d from rfl)
      hd0 hev hrf
    rw [H]
    split_ifs with h1 h2
    · rw [invalidMsg, deadlinePosMsg]
      exact msgNe_tmpl_tmpl _ _ _ _ 1 (by decide) (by decide) (by decide)
    · rw [compliantMsg, deadlinePosMsg]
      exact msgNe_tmpl_tmpl _ _ _ _ 1 (by decide) (by decide) (by decide)
    · rw [nonCompliantMsg, deadlinePosMsg]
      exact msgNe_tmpl_tmpl _ _ _ _ 1 (by decide) (by decide) (by decide)

/-- Witness for C10: equal dates with a zero deadline are COMPLIANT with
0 days elapsed and 0 days remaining. -/
theorem C10_witness :
    check_policy_compliance "2024-01-15" "2024-01-15" (PyDeadline.int 0) =
      "COMPLIANT: Event occurred 0 days after reference date. Deadline: 0 days. Status: Within deadline (0 days remaining)" := by
  have h := (C10_zero_deadline "2024-01-15" "2024-01-15" ⟨2024, 1, 15⟩ ⟨2024, 1, 15⟩
      (by decide) (by decide) (by decide)).1
  rw [h]
  decide

/-- C2: for valid, ordered timestamps the duration tool returns exactly the
`Duration: {days} days, {hours} hours, {minutes} minutes (Total: {x} hours)`
string, where days/hours/minutes decompose the elapsed seconds
(`d*86400 + h*3600 + m*60 ≤ T < d*86400 + h*3600 + (m+1)*60`, hours in
[0,24), minutes in [0,60)), and the printed total is the binary64 value of
`T / 3600` rendered to two decimals exactly as CPython renders it
(`fl64` then `cents2f`), which agrees with the exact ratio `T / 3600` to
within half a hundredth. -/
theorem C2_duration_decomposition
    (s e : String) (a b : PyDateTime) (T : ℕ)
    (hs : parseDateTime (pyStrip s) = Option.some a)
    (he : parseDateTime (pyStrip e) = Option.some b)
    (hord : dtSeconds a ≤ dtSeconds b)
    (hT : T = dtSeconds b - dtSeconds a) :
    calculate_timeline_duration s e = durationMsg T ∧
    durationMsg T = "Duration: " ++
      (natToStr (durDays T) ++
        (" days, " ++
          (natToStr (durHours T) ++
            (" hours, " ++
              (natToStr (durMinutes T) ++
                (" minutes (Total: " ++
                  (format2f ((T : ℚ) / 3600) ++ " hours)"))))))) ∧
    durDays T * 86400 + durHours T * 3600 + durMinutes T * 60 ≤ T ∧
    T < durDays T * 86400 + durHours T * 3600 + (durMinutes T + 1) * 60 ∧
    durHours T < 24 ∧ durMinutes T < 60 ∧
    |(cents2f ((T : ℚ) / 3600) : ℚ) / 100 - (T : ℚ) / 3600| ≤ 1 / 200 := by
  subst hT
  refine ⟨timeline_success hs he hord, rfl, ?_, ?_, ?_, ?_, ?_⟩
  · rw [durDays, durHours, durMinutes]
    omega
  · rw [durDays, durHours, durMinutes]
    omega
  · rw [durHours]
    omega
  · rw [durMinutes]
    omega
  · apply cents2f_div3600_close
    have hbb := dtSeconds_le he
    omega

/-- Witness for C2 at the spec scenario: 279000 elapsed seconds are 77.5
hours, exactly representable in binary64, and the program prints 77.50. -/
theorem C2_witness :
    calculate_timeline_duration "2024-01-15 09:00:00" "2024-01-18 14:30:00" =
      "Duration: 3 days, 5 hours, 30 minutes (Total: 77.50 hours)" := by
  have h := C2_duration_decomposition "2024-01-15 09:00:00" "2024-01-18 14:30:00"
    ⟨⟨2024, 1, 15⟩, 9, 0, 0⟩ ⟨⟨2024, 1, 18⟩, 14, 30, 0⟩ 279000
    (by decide) (by decide) (by decide) (by decide)
  have hfl : fl64 (((279000 : ℕ) : ℚ) / 3600)
      = ((155 * 2 ^ 45 : ℤ) : ℚ) * 2 ^ ((6 : ℤ) - 52) :=
    fl64_eval (by norm_num) (by norm_num) (by norm_num) (by norm_num)
      (by
        push_cast
        rw [div_mul_eq_mul_div, div_eq_iff (by norm_num : (3600 : ℚ) ≠ 0)]
        norm_num)
  have hc : cents2f (((279000 : ℕ) : ℚ) / 3600) = 7750 := by
    rw [cents2f, hfl,
      show ((155 * 2 ^ 45 : ℤ) : ℚ) * 2 ^ ((6 : ℤ) - 52) * 100 = ((7750 : ℤ) : ℚ) by
        rw [show ((6 : ℤ) - 52) = -((46 : ℕ) : ℤ) by norm_num, zpow_neg, zpow_natCast]
        push_cast
        rw [← div_eq_mul_inv, div_mul_eq_mul_div, div_eq_iff (by positivity)]
        norm_num,
      rne_intCast]
  rw [h.1, durationMsg, format2f, hc]
  decide

/-- C7: the duration tool validates in the fixed order — presence of both
arguments, parseability of start, parseability of end, then the ordering —
the first failing check determines the message, and the four failure
messages are pairwise distinct for all argument values. -/
theorem C7_timeline_validation_order (s e : String) :
    ((s = "" ∨ e = "") → calculate_timeline_duration s e = bothReqTimelineMsg) ∧
    (s ≠ "" → e ≠ "" → parseDateTime (pyStrip s) = Option.none →
      calculate_timeline_duration s e = startFmtMsg s) ∧
    (∀ a : PyDateTime, s ≠ "" → e ≠ "" → parseDateTime (pyStrip s) = Option.some a →
      parseDateTime (pyStrip e) = Option.none →
      calculate_timeline_duration s e = endFmtMsg e) ∧
    (∀ a b : PyDateTime, parseDateTime (pyStrip s) = Option.some a →
      parseDateTime (pyStrip e) = Option.some b → dtSeconds b < dtSeconds a →
      calculate_timeline_duration s e = orderDTMsg s e) ∧
    (∀ s2 e2 s3 e3 : String,
      bothReqTimelineMsg ≠ startFmtMsg s2 ∧ bothReqTimelineMsg ≠ endFmtMsg e2 ∧
        bothReqTimelineMsg ≠ orderDTMsg s3 e3 ∧ startFmtMsg s2 ≠ endFmtMsg e2 ∧
        startFmtMsg s2 ≠ orderDTMsg s3 e3 ∧ endFmtMsg e2 ≠ orderDTMsg s3 e3) := by
  refine ⟨timeline_empty, ?_, ?_, ?_, ?_⟩
  · intro hs he hp
    exact timeline_startErr hs he hp
  · intro a hs he hpa hpe
    exact timeline_endErr hs he hpa hpe
  · intro a b hpa hpb hlt
    exact timeline_order hpa hpb hlt
  · intro s2 e2 s3 e3
    refine ⟨?_, ?_, ?_, ?_, ?_, ?_⟩
    · rw [bothReqTimelineMsg, startFmtMsg]
      exact msgNe_const_tmpl _ _ _ 11 (by decide) (by decide)
    · rw [bothReqTimelineMsg, endFmtMsg]
      exact msgNe_const_tmpl _ _ _ 11 (by decide) (by decide)
    · rw [bothReqTimelineMsg, orderDTMsg]
      exact msgNe_const_tmpl _ _ _ 8 (by decide) (by decide)
    · rw [startFmtMsg, endFmtMsg]
      exact msgNe_tmpl_tmpl _ _ _ _ 16 (by decide) (by decide) (by decide)
    · rw [startFmtMsg, orderDTMsg]
      exact msgNe_tmpl_tmpl _ _ _ _ 8 (by decide) (by decide) (by decide)
    · rw [endFmtMsg, orderDTMsg]
      exact msgNe_tmpl_tmpl _ _ _ _ 8 (by decide) (by decide) (by decide)

/-- Witness for C7: a present but malformed start is reported as the
start-format error even when the end is malformed too. -/
theorem C7_witness :
    calculate_timeline_duration "15/01/2024" "also-bad" =
      "Error: Invalid start_datetime format '15/01/2024'. Required format: 'YYYY-MM-DD HH:MM:SS' (e.g., '2024-01-15 09:30:00')" := by
  have h := (C7_timeline_validation_order "15/01/2024" "also-bad").2.1
    (by decide) (by decide) (by decide)
  rw [h]
  decide

lemma bizDays_card {s e : ℕ} (h : s ≤ e) :
    bizDays s e = ((Finset.Icc s e).filter (fun o => pyWeekday o < 5)).card := by
  have hb := businessCount_Icc s (e - s)
  rw [show s + (e - s) = e by omega] at hb
  rw [bizDays]
  exact hb

/-- C3: for valid, ordered dates the business-day tool reports the size of
the inclusive date range as calendar days, the number of Monday–Friday
dates as business days, and the number of Saturday/Sunday dates as weekend
days; equal endpoints give one calendar day classified by its weekday, and
a span of weekend days only gives zero business days. -/
theorem C3_business_day_counts (s e : String) (a b : Date)
    (hpa : parseDate (pyStrip s) = Option.some a)
    (hpb : parseDate (pyStrip e) = Option.some b)
    (hord : dateOrd a ≤ dateOrd b) :
    calculate_business_days s e =
      bizMsg (bizDays (dateOrd a) (dateOrd b)) (calDays (dateOrd a) (dateOrd b))
        (wkndDays (dateOrd a) (dateOrd b)) s e ∧
    calDays (dateOrd a) (dateOrd b) = (Finset.Icc (dateOrd a) (dateOrd b)).card ∧
    bizDays (dateOrd a) (dateOrd b) =
      ((Finset.Icc (dateOrd a) (dateOrd b)).filter (fun o => pyWeekday o < 5)).card ∧
    wkndDays (dateOrd a) (dateOrd b) =
      ((Finset.Icc (dateOrd a) (dateOrd b)).filter (fun o => ¬ pyWeekday o < 5)).card ∧
    (dateOrd a = dateOrd b →
      calDays (dateOrd a) (dateOrd b) = 1 ∧
      (pyWeekday (dateOrd a) < 5 →
        bizDays (dateOrd a) (dateOrd b) = 1 ∧ wkndDays (dateOrd a) (dateOrd b) = 0) ∧
      (¬ pyWeekday (dateOrd a) < 5 →
        bizDays (dateOrd a) (dateOrd b) = 0 ∧ wkndDays (dateOrd a) (dateOrd b) = 1)) ∧
    ((∀ o ∈ Finset.Icc (dateOrd a) (dateOrd b), ¬ pyWeekday o < 5) →
      bizDays (dateOrd a) (dateOrd b) = 0) := by
  have hcal : calDays (dateOrd a) (dateOrd b) = (Finset.Icc (dateOrd a) (dateOrd b)).card := by
    rw [calDays, Nat.card_Icc]
    omega
  have hbiz := bizDays_card hord
  have hsplit : ((Finset.Icc (dateOrd a) (dateOrd b)).filter (fun o => pyWeekday o < 5)).card +
      ((Finset.Icc (dateOrd a) (dateOrd b)).filter (fun o => ¬ pyWeekday o < 5)).card =
      (Finset.Icc (dateOrd a) (dateOrd b)).card :=
    Finset.filter_card_add_filter_neg_card_eq_card _
  have hwknd : wkndDays (dateOrd a) (dateOrd b) =
      ((Finset.Icc (dateOrd a) (dateOrd b)).filter (fun o => ¬ pyWeekday o < 5)).card := by
    rw [wkndDays, hbiz, hcal]
    omega
  refine ⟨business_success hpa hpb hord, hcal, hbiz, hwknd, ?_, ?_⟩
  · intro hab
    rw [← hab] at hcal hbiz hwknd ⊢
    rw [Finset.Icc_self] at hcal hbiz hwknd
    rw [Finset.filter_singleton] at hbiz hwknd
    refine ⟨by simpa using hcal, ?_, ?_⟩
    · intro hwk
      rw [if_pos hwk] at hbiz
      rw [if_neg (by simpa using hwk)] at hwknd
      simp only [Finset.card_singleton] at hbiz
      simp only [Finset.card_empty] at hwknd
      exact ⟨hbiz, hwknd⟩
    · intro hwk
      rw [if_neg hwk] at hbiz
      rw [if_pos (by simpa using hwk)] at hwknd
      simp only [Finset.card_empty] at hbiz
      simp only [Finset.card_singleton] at hwknd
      exact ⟨hbiz, hwknd⟩
  · intro hall
    rw [hbiz, Finset.filter_eq_empty_iff.mpr hall, Finset.card_empty]

/-- Witness for C3 at the pure-weekend spec scenario (Sat 2024-01-20 to
Sun 2024-01-21). -/
theorem C3_witness :
    calculate_business_days "2024-01-20" "2024-01-21" =
      "Business days: 0, Calendar days: 2, Weekend days: 2 (from 2024-01-20 to 2024-01-21)" := by
  have h := (C3_business_day_counts "2024-01-20" "2024-01-21"
      ⟨2024, 1, 20⟩ ⟨2024, 1, 21⟩ (by decide) (by decide) (by decide)).1
  rw [h]
  decide

/-- C4: for every valid, ordered call the three reported counts satisfy
`business_days + weekend_days = calendar_days`. -/
theorem C4_additivity (s e : String) (a b : Date)
    (hpa : parseDate (pyStrip s) = Option.some a)
    (hpb : parseDate (pyStrip e) = Option.some b)
    (hord : dateOrd a ≤ dateOrd b) :
    calculate_business_days s e =
      bizMsg (bizDays (dateOrd a) (dateOrd b)) (calDays (dateOrd a) (dateOrd b))
        (wkndDays (dateOrd a) (dateOrd b)) s e ∧
    bizDays (dateOrd a) (dateOrd b) + wkndDays (dateOrd a) (dateOrd b) =
      calDays (dateOrd a) (dateOrd b) := by
  refine ⟨business_success hpa hpb hord, ?_⟩
  have hle := businessCount_le (dateOrd a) (dateOrd b - dateOrd a + 1)
  rw [bizDays, wkndDays, calDays, bizDays]
  omega

/-- Witness for C4 at the spec scenario 2024-01-15 … 2024-01-29
(11 + 4 = 15). -/
theorem C4_witness :
    calculate_business_days "2024-01-15" "2024-01-29" =
      "Business days: 11, Calendar days: 15, Weekend days: 4 (from 2024-01-15 to 2024-01-29)" ∧
    (11 : ℕ) + 4 = 15 := by
  have h := C4_additivity "2024-01-15" "2024-01-29" ⟨2024, 1, 15⟩ ⟨2024, 1, 29⟩
    (by decide) (by decide) (by decide)
  exact ⟨by rw [h.1]; decide, by norm_num⟩

/-- C8: replacing the end date by the next calendar day leaves the call in
the success branch, raises the calendar count by exactly one, and raises
the business count by zero or one; neither count decreases. -/
theorem C8_monotonicity (s e e2 : String) (a b b2 : Date)
    (hpa : parseDate (pyStrip s) = Option.some a)
    (hpb : parseDate (pyStrip e) = Option.some b)
    (hpb2 : parseDate (pyStrip e2) = Option.some b2)
    (hsucc : dateOrd b2 = dateOrd b + 1)
    (hord : dateOrd a ≤ dateOrd b) :
    calculate_business_days s e2 =
      bizMsg (bizDays (dateOrd a) (dateOrd b2)) (calDays (dateOrd a) (dateOrd b2))
        (wkndDays (dateOrd a) (dateOrd b2)) s e2 ∧
    calDays (dateOrd a) (dateOrd b2) = calDays (dateOrd a) (dateOrd b) + 1 ∧
    (bizDays (dateOrd a) (dateOrd b2) = bizDays (dateOrd a) (dateOrd b) ∨
      bizDays (dateOrd a) (dateOrd b2) = bizDays (dateOrd a) (dateOrd b) + 1) ∧
    calDays (dateOrd a) (dateOrd b) ≤ calDays (dateOrd a) (dateOrd b2) ∧
    bizDays (dateOrd a) (dateOrd b) ≤ bizDays (dateOrd a) (dateOrd b2) := by
  have hstep : bizDays (dateOrd a) (dateOrd b2) =
      bizDays (dateOrd a) (dateOrd b) +
        (if pyWeekday (dateOrd a + (dateOrd b - dateOrd a + 1)) < 5 then 1 else 0) := by
    rw [bizDays, bizDays, hsucc,
      show dateOrd b + 1 - dateOrd a + 1 = (dateOrd b - dateOrd a + 1) + 1 by omega,
      businessCount]
  refine ⟨business_success hpa hpb2 (by omega), ?_, ?_, ?_, ?_⟩
  · rw [calDays, calDays]
    omega
  · rw [hstep]
    split_ifs <;> omega
  · rw [calDays, calDays]
    omega
  · rw [hstep]
    split_ifs <;> omega

/-- Witness for C8: extending Fri 2024-01-19 … Sat 2024-01-20 by one day
keeps business days at 5 while calendar days grow from 2 to 3 — here
extending Mon 2024-01-15 … Fri 2024-01-19 to Sat 2024-01-20. -/
theorem C8_witness :
    calculate_business_days "2024-01-15" "2024-01-20" =
      "Business days: 5, Calendar days: 6, Weekend days: 1 (from 2024-01-15 to 2024-01-20)" := by
  have h := C8_monotonicity "2024-01-15" "2024-01-19" "2024-01-20"
    ⟨2024, 1, 15⟩ ⟨2024, 1, 19⟩ ⟨2024, 1, 20⟩
    (by decide) (by decide) (by decide) (by decide) (by decide)
  rw [h.1]
  decide

/-- C9: all three operations parse the stripped form of their date
arguments — so input that is valid after removing surrounding whitespace is
accepted and classified normally — while every message that echoes an input
(`(from … to …)`, the per-field format errors, and the INVALID
classification) interpolates the original, unstripped argument string. -/
theorem C9_strip_and_echo :
    (∀ (s e : String) (a b : PyDateTime),
      parseDateTime (pyStrip s) = Option.some a →
      parseDateTime (pyStrip e) = Option.some b → dtSeconds a ≤ dtSeconds b →
      calculate_timeline_duration s e = durationMsg (dtSeconds b - dtSeconds a)) ∧
    (∀ (s e : String) (a b : Date),
      parseDate (pyStrip s) = Option.some a → parseDate (pyStrip e) = Option.some b →
      dateOrd a ≤ dateOrd b →
      calculate_business_days s e =
        bizMsg (bizDays (dateOrd a) (dateOrd b)) (calDays (dateOrd a) (dateOrd b))
          (wkndDays (dateOrd a) (dateOrd b)) s e) ∧
    (∀ s e : String, s ≠ "" → e ≠ "" → parseDate (pyStrip s) = Option.none →
      calculate_business_days s e = startDateFmtMsg s) ∧
    (∀ (ev rf : String) (x y : Date) (dd : PyDeadline) (d : ℤ),
      parseDate (pyStrip ev) = Option.some x → parseDate (pyStrip rf) = Option.some y →
      coerceDeadline dd = Option.some d → 0 ≤ d → (dateOrd x : ℤ) - dateOrd y < 0 →
      check_policy_compliance ev rf dd = invalidMsg ev rf ((dateOrd x : ℤ) - dateOrd y)) := by
  refine ⟨?_, ?_, ?_, ?_⟩
  · intro s e a b hpa hpb hle
    exact timeline_success hpa hpb hle
  · intro s e a b hpa hpb hle
    exact business_success hpa hpb hle
  · intro s e hs he hp
    exact business_startErr hs he hp
  · intro ev rf x y dd d hpe hpr hco hd0 hneg
    rw [compliance_success hco hd0 hpe hpr, if_pos hneg]

/-- Witness for C9: whitespace-padded dates are accepted, and the success
message echoes them unstripped. -/
theorem C9_witness :
    calculate_business_days " 2024-01-15" "2024-01-16 " =
      "Business days: 2, Calendar days: 2, Weekend days: 0 (from  2024-01-15 to 2024-01-16 )" := by
  have h := C9_strip_and_echo.2.1 " 2024-01-15" "2024-01-16 "
    ⟨2024, 1, 15⟩ ⟨2024, 1, 16⟩ (by decide) (by decide) (by decide)
  rw [h]
  decide

lemma timeline_error_iff (s e : String) :
    strContains "Error" (calculate_timeline_duration s e) ↔ ¬ timelineOk s e := by
  by_cases h1 : s = "" ∨ e = ""
  · rw [timeline_empty h1]
    refine iff_of_true (strContains_of_take5 (by decide)) ?_
    rintro ⟨hs, he, -⟩
    tauto
  · push_neg at h1
    obtain ⟨hs, he⟩ := h1
    cases hps : parseDateTime (pyStrip s) with
    | none =>
      rw [timeline_startErr hs he hps, startFmtMsg]
      refine iff_of_true (strContains_append_left _ (by decide) (by decide)) ?_
      rintro ⟨-, -, a, b, ha, -, -⟩
      rw [hps] at ha
      exact Option.noConfusion ha
    | some a =>
      cases hpe : parseDateTime (pyStrip e) with
      | none =>
        rw [timeline_endErr hs he hps hpe, endFmtMsg]
        refine iff_of_true (strContains_append_left _ (by decide) (by decide)) ?_
        rintro ⟨-, -, a2, b2, -, hb, -⟩
        rw [hpe] at hb
        exact Option.noConfusion hb
      | some b =>
        by_cases hord : dtSeconds b < dtSeconds a
        · rw [timeline_order hps hpe hord, orderDTMsg]
          refine iff_of_true (strContains_append_left _ (by decide) (by decide)) ?_
          rintro ⟨-, -, a2, b2, ha2, hb2, hle⟩
          rw [hps] at ha2
          rw [hpe] at hb2
          obtain rfl := Option.some.inj ha2
          obtain rfl := Option.some.inj hb2
          omega
        · rw [timeline_success hps hpe (by omega)]
          exact iff_of_false (not_contains_durationMsg _)
            (not_not_intro ⟨hs, he, a, b, hps, hpe, by omega⟩)

lemma business_error_iff (s e : String) :
    strContains "Error" (calculate_business_days s e) ↔ ¬ businessOk s e := by
  by_cases h1 : s = "" ∨ e = ""
  · rw [business_empty h1]
    refine iff_of_true (strContains_of_take5 (by decide)) ?_
    rintro ⟨hs, he, -⟩
    tauto
  · push_neg at h1
    obtain ⟨hs, he⟩ := h1
    cases hps : parseDate (pyStrip s) with
    | none =>
      rw [business_startErr hs he hps, startDateFmtMsg]
      refine iff_of_true (strContains_append_left _ (by decide) (by decide)) ?_
      rintro ⟨-, -, a, b, ha, -, -⟩
      rw [hps] at ha
      exact Option.noConfusion ha
    | some a =>
      cases hpe : parseDate (pyStrip e) with
      | none =>
        rw [business_endErr hs he hps hpe, endDateFmtMsg]
        refine iff_of_true (strContains_append_left _ (by decide) (by decide)) ?_
        rintro ⟨-, -, a2, b2, -, hb, -⟩
        rw [hpe] at hb
        exact Option.noConfusion hb
      | some b =>
        by_cases hord : dateOrd b < dateOrd a
        · rw [business_order hps hpe hord, orderDateMsg]
          refine iff_of_true (strContains_append_left _ (by decide) (by decide)) ?_
          rintro ⟨-, -, a2, b2, ha2, hb2, hle⟩
          rw [hps] at ha2
          rw [hpe] at hb2
          obtain rfl := Option.some.inj ha2
          obtain rfl := Option.some.inj hb2
          omega
        · rw [business_success hps hpe (by omega)]
          exact iff_of_false
            (not_contains_of_erSafe (erSafe_bizMsg _ _ _
              (erSafe_of_parseDate hps) (erSafe_of_parseDate hpe)))
            (not_not_intro ⟨hs, he, a, b, hps, hpe, by omega⟩)

lemma compliance_error_iff (ev rf : String) (dd : PyDeadline) :
    strContains "Error" (check_policy_compliance ev rf dd) ↔ ¬ complianceOk ev rf dd := by
  by_cases h1 : ev = "" ∨ rf = ""
  · rw [compliance_empty h1]
    refine iff_of_true (strContains_of_take5 (by decide)) ?_
    rintro ⟨hev, hrf, -⟩
    tauto
  · push_neg at h1
    obtain ⟨hev, hrf⟩ := h1
    by_cases h2 : dd = PyDeadline.none
    · subst h2
      rw [compliance_ddReq hev hrf]
      refine iff_of_true (strContains_of_take5 (by decide)) ?_
      rintro ⟨-, -, ⟨d, hco, -⟩, -, -⟩
      simp [coerceDeadline] at hco
    · cases hco : coerceDeadline dd with
      | none =>
        rw [compliance_ddInt hev hrf h2 hco, deadlineIntMsg]
        refine iff_of_true (strContains_append_left _ (by decide) (by decide)) ?_
        rintro ⟨-, -, ⟨d, hd, -⟩, -, -⟩
        rw [hco] at hd
        exact Option.noConfusion hd
      | some d =>
        by_cases hneg : d < 0
        · rw [compliance_ddNeg hev hrf hco hneg, deadlinePosMsg]
          refine iff_of_true (strContains_append_left _ (by decide) (by decide)) ?_
          rintro ⟨-, -, ⟨d2, hd2, hd20⟩, -, -⟩
          rw [hco] at hd2
          obtain rfl := Option.some.inj hd2
          omega
        · cases hpe : parseDate (pyStrip ev) with
          | none =>
            rw [compliance_evErr hev hrf hco (by omega) hpe, eventFmtMsg]
            refine iff_of_true (strContains_append_left _ (by decide) (by decide)) ?_
            rintro ⟨-, -, -, ⟨x, hx⟩, -⟩
            rw [hpe] at hx
            exact Option.noConfusion hx
          | some x =>
            cases hpr : parseDate (pyStrip rf) with
            | none =>
              rw [compliance_rfErr hrf hco (by omega) hpe hpr, refFmtMsg]
              refine iff_of_true (strContains_append_left _ (by decide) (by decide)) ?_
              rintro ⟨-, -, -, -, ⟨y, hy⟩⟩
              rw [hpr] at hy
              exact Option.noConfusion hy
            | some y =>
              rw [compliance_success hco (by omega) hpe hpr]
              have hOk : complianceOk ev rf dd :=
                ⟨hev, hrf, ⟨d, hco, by omega⟩, ⟨x, hpe⟩, ⟨y, hpr⟩⟩
              split_ifs with ha hb
              · exact iff_of_false
                  (not_contains_of_erSafe (erSafe_invalidMsg _
                    (erSafe_of_parseDate hpe) (erSafe_of_parseDate hpr)))
                  (not_not_intro hOk)
              · exact iff_of_false
                  (not_contains_of_erSafe (erSafe_compliantMsg _ _))
                  (not_not_intro hOk)
              · exact iff_of_false
                  (not_contains_of_erSafe (erSafe_nonCompliantMsg _ _))
                  (not_not_intro hOk)

/-- C5: each operation is a total string-valued function of its arguments
(the model is a Lean function, mirroring the source's catch-all that
converts any error to a string, so no exception reaches the caller), and
for every input — malformed, missing, or out of order — the returned
string contains the substring `"Error"` exactly when one of the error
conditions of the taxonomy occurred; success outputs, the INVALID /
COMPLIANT / NON-COMPLIANT classifications included, never contain it. -/
theorem C5_error_channel (s e : String) (dd : PyDeadline) :
    (strContains "Error" (calculate_timeline_duration s e) ↔ ¬ timelineOk s e) ∧
    (strContains "Error" (calculate_business_days s e) ↔ ¬ businessOk s e) ∧
    (strContains "Error" (check_policy_compliance s e dd) ↔ ¬ complianceOk s e dd) :=
  ⟨timeline_error_iff s e, business_error_iff s e, compliance_error_iff s e dd⟩

end ClaimDateTools
